import Mathlib

/-!
# at_custom_cmd.c : HTTP download to file system, file system upload to HTTP server

Shallow embedding of `examples/at_custom_cmd/custom/at_custom_cmd.c`.

* C `char` / `uint8_t` buffers are lists of `Char`, one element per byte.
* `int32_t` / `int` / `esp_err_t` values are `Int`; `uint32_t` / `size_t` values are `Nat`;
  arithmetic that can leave the range is reduced with `toU32` / `toI32`.
* Pointers are `Option` (or `Bool` for handles whose target is not inspected): `none` / `false`
  is `NULL`.
* Everything outside the file (AT front end, HTTP client, libc, FATFS) is an explicit
  environment record; every call to it is appended to a trace of `Call`s.
* A function returns `none` when the C code has no result on that environment: it blocks for
  ever in `xSemaphoreTake`, the scripted environment ends before the loop does, or a `NULL`
  pointer is dereferenced.
-/

namespace AtCustomCmd

set_option maxRecDepth 100000

/-! ## Constants -/

/-- The macro `AT_URL_LEN_MAX`, defined as `(8 * 1024)`. -/
def AT_URL_LEN_MAX : Int := 8 * 1024

/-- The macro `AT_HEAP_BUFFER_SIZE`, defined as `4096`. -/
def AT_HEAP_BUFFER_SIZE : Nat := 4096

/-- The macro `AT_FATFS_MOUNT_POINT`, the string `/fatfs`. -/
def AT_FATFS_MOUNT_POINT : List Char := "/fatfs".toList

/-- ESP-IDF `esp_err.h`: `ESP_OK`. -/
def ESP_OK : Int := 0

/-- ESP-IDF `esp_err.h`: `ESP_FAIL`. -/
def ESP_FAIL : Int := -1

/-- ESP-IDF `esp_err.h`: `ESP_ERR_NO_MEM`. -/
def ESP_ERR_NO_MEM : Int := 0x101

/-- ESP-IDF `esp_err.h`: `ESP_ERR_INVALID_ARG`. -/
def ESP_ERR_INVALID_ARG : Int := 0x102

/-- ESP-IDF `esp_http_client.h`: `HttpStatus_Ok`. -/
def HttpStatus_Ok : Int := 200

/-- ESP-IDF `esp_http_client.h`: `HttpStatus_BadRequest`. -/
def HttpStatus_BadRequest : Int := 400

/-- The two result codes a setup handler returns to the AT front end. -/
inductive ResultCode where
  | ESP_AT_RESULT_CODE_OK
  | ESP_AT_RESULT_CODE_ERROR
  deriving DecidableEq, Repr

/-! ## Machine integers -/

/-- Conversion of an integer value to `uint32_t` / `size_t` (reduction modulo 2^32). -/
def toU32 (i : Int) : Nat := (i % 4294967296).toNat

/-- Conversion of an integer value to `int32_t` / `int` (two's complement). -/
def toI32 (i : Int) : Int :=
  let m := i % 4294967296
  if m < 2147483648 then m else m - 4294967296

/-! ## Calls into the environment -/

/-- One call made by the file into the AT front end, the HTTP client, libc or FATFS,
with the arguments and results the claims speak about. -/
inductive Call where
  | calloc_session (ok : Bool)
  | calloc_fs_handle (ok : Bool)
  | at_fatfs_mount (ok : Bool)
  | esp_vfs_fat_info (ok : Bool)
  | calloc_path (ok : Bool)
  | remove
  | stat (ok : Bool)
  | fopen (ok : Bool)
  | calloc_url (ok : Bool)
  | xSemaphoreCreateBinary (ok : Bool)
  | esp_at_port_enter_specific
  | esp_at_response_result_prompt
  | xSemaphoreTake
  | esp_at_port_read_data (offset : Int) (len : Int) (ret : Nat)
  | esp_at_port_exit_specific
  | esp_at_port_get_data_length (ret : Nat)
  | esp_at_port_recv_data_notify (len : Nat)
  | esp_http_client_init (ok : Bool)
  | esp_http_client_set_method_get
  | esp_http_client_set_method_post
  | esp_http_client_set_header (key : List Char) (value : List Char)
  | esp_at_http_set_header_if_config
  | calloc_body_start (ok : Bool)
  | calloc_body_end (ok : Bool)
  | esp_http_client_open (write_len : Int) (ret : Int)
  | esp_http_client_fetch_headers (ret : Int)
  | esp_http_client_get_status_code (ret : Int)
  | malloc_data (ok : Bool)
  | esp_http_client_read (ret : Int)
  | fseek (offset : Nat) (ok : Bool)
  | fwrite (len : Nat) (ret : Nat)
  | fread (len : Nat) (ret : Nat)
  | esp_http_client_write (buf : List Char) (len : Int) (ret : Int)
  | esp_http_client_perform (ret : Int)
  | free_data
  | free_body_start
  | free_body_end
  | vSemaphoreDelete
  | free_url
  | esp_http_client_cleanup
  | fclose
  | free_path
  | at_fatfs_unmount
  | free_fs_handle
  | free_session
  deriving DecidableEq, Repr

/-! ## Data model -/

/-- The struct `at_write_fs_handle_t`. -/
structure at_write_fs_handle_t where
  fs_mounted : Bool
  path : Option (List Char)
  fp : Bool
  available_size : Nat
  total_size : Nat
  wrote_size : Nat
  deriving DecidableEq, Repr

/-- The struct `at_httpget_to_fs_t`. -/
structure at_httpget_to_fs_t where
  url : Option (List Char)
  total_size : Int
  recv_size : Int
  is_chunked : Bool
  sync_sema : Bool
  client : Bool
  fs_handle : Option at_write_fs_handle_t
  deriving DecidableEq, Repr

/-- The struct `at_read_fs_handle_t`. -/
structure at_read_fs_handle_t where
  fs_mounted : Bool
  path : Option (List Char)
  fp : Bool
  total_size : Nat
  had_read_size : Nat
  deriving DecidableEq, Repr

/-- The struct `at_fs_to_http_server_t`. -/
structure at_fs_to_http_server_t where
  url : Option (List Char)
  post_size : Int
  sync_sema : Bool
  client : Bool
  fs_handle : Option at_read_fs_handle_t
  deriving DecidableEq, Repr

/-- The events of `esp_http_client_event_t` with the fields the handlers read. -/
inductive HttpEvent where
  | HTTP_EVENT_ERROR
  | HTTP_EVENT_ON_CONNECTED
  | HTTP_EVENT_HEADER_SENT
  | HTTP_EVENT_ON_HEADER (header_key : String) (header_value : String)
  | HTTP_EVENT_ON_DATA (data_len : Int)
  | HTTP_EVENT_ON_FINISH
  | HTTP_EVENT_DISCONNECTED
  | HTTP_EVENT_OTHER
  deriving DecidableEq, Repr

/-! ## Environment of the download handler -/

/-- One iteration of the download loop as the environment answers it: the return value of
`esp_http_client_read`, the bytes it put into the buffer (`data_len` of them when `data_len` is
positive), the events the client dispatched during the call, and how the file system answers
the write of that iteration (`fseek` succeeds or not, and how many bytes `fwrite` accepts at
most). -/
structure DlStep where
  data_len : Int
  data : List Char
  events : List HttpEvent
  seek_ok : Bool
  accept : Nat
  deriving DecidableEq, Repr

/-- Everything `at_setup_cmd_httpget_to_fs` obtains from outside the file. -/
structure GetEnv where
  para_str_ok : Bool
  dst_path : Option (List Char)
  para_digit_ok : Bool
  url_len : Int
  calloc_session_ok : Bool
  calloc_fs_handle_ok : Bool
  mount_ok : Bool
  fat_info_ok : Bool
  fs_total_size : Nat
  fs_free_size : Nat
  calloc_path_ok : Bool
  fopen_ok : Bool
  old_file : List Char
  calloc_url_ok : Bool
  sema_ok : Bool
  wakeups : List (List Char)
  client_init_ok : Bool
  open_ret : Int
  open_events : List HttpEvent
  fetch_ret : Int
  header_events : List HttpEvent
  status_code : Int
  malloc_ok : Bool
  steps : List DlStep
  deriving DecidableEq, Repr

/-! ## libc -/

/-- The `isspace` of the C locale. -/
def isspace (c : Char) : Bool :=
  c = Char.ofNat 32 || (9 ≤ c.toNat && c.toNat ≤ 13)

/-- The libc `atoi`: optional white space, optional sign, decimal digits up to the first other
character; a string without digits gives 0. Values outside `int` saturate, as newlib's `strtol`
does on a 32-bit `long`. -/
def atoi (s : String) : Int :=
  let cs := s.toList.dropWhile isspace
  let neg := cs.head? = some (Char.ofNat 45)
  let ds := if cs.head? = some (Char.ofNat 45) ∨ cs.head? = some (Char.ofNat 43) then cs.tail else cs
  let n : Nat := (ds.takeWhile Char.isDigit).foldl (fun a c => 10 * a + (c.toNat - 48)) 0
  if neg then max (-(n : Int)) (-2147483648) else min (n : Int) 2147483647

/-- A file after `fseek(fp, off, SEEK_SET)` followed by an `fwrite` that stored `bytes`:
a gap past the old end is filled with zero bytes, bytes under the written range are replaced. -/
def fwrite_at (file : List Char) (off : Nat) (bytes : List Char) : List Char :=
  file.take off ++ List.replicate (off - file.length) (Char.ofNat 0) ++ bytes
    ++ file.drop (off + bytes.length)

/-- The libc `snprintf(buf, size, fmt, ...)`, given the fully formatted text: the characters stored in
`buf` before the terminating NUL (at most `size - 1`) and the return value, which is the length
of the fully formatted text whether or not it fitted. -/
def snprintf (size : Nat) (formatted : List Char) : List Char × Int :=
  (formatted.take (size - 1), (formatted.length : Int))

/-! ## Download: storage handle -/

/-- Result of `at_http_to_fs_write`: return code, the handle and file afterwards, libc calls. -/
structure WriteOut where
  ret : Int
  fs_handle : Option at_write_fs_handle_t
  file : List Char
  calls : List Call
  deriving DecidableEq, Repr

/-- The function `at_http_to_fs_write(fs_handle, data, len)`; `seek_ok` and `accept` are the answers of
`fseek` and `fwrite` (which stores `min len accept` bytes). -/
def at_http_to_fs_write (fs_handle : Option at_write_fs_handle_t) (file : List Char)
    (data : List Char) (len : Nat) (seek_ok : Bool) (accept : Nat) : WriteOut :=
  match fs_handle with
  | none => ⟨ESP_ERR_INVALID_ARG, none, file, []⟩
  | some h =>
    if !h.fp then ⟨ESP_ERR_INVALID_ARG, some h, file, []⟩
    else if !seek_ok then ⟨ESP_FAIL, some h, file, [Call.fseek h.wrote_size false]⟩
    else
      let wrote_len := min len accept
      let file1 := fwrite_at file h.wrote_size (data.take wrote_len)
      let calls := [Call.fseek h.wrote_size true, Call.fwrite len wrote_len]
      if wrote_len ≠ len then ⟨ESP_FAIL, some h, file1, calls⟩
      else ⟨ESP_OK, some { h with wrote_size := (h.wrote_size + len) % 4294967296 }, file1, calls⟩

/-- Result of `at_http_to_fs_begin`. -/
structure BeginOut where
  fs_handle : Option at_write_fs_handle_t
  file : List Char
  calls : List Call
  deriving DecidableEq, Repr

/-- The function `at_http_to_fs_begin(path)`. -/
def at_http_to_fs_begin (env : GetEnv) (path : List Char) : BeginOut :=
  if !env.calloc_fs_handle_ok then ⟨none, env.old_file, [Call.calloc_fs_handle false]⟩
  else if !env.mount_ok then
    ⟨none, env.old_file, [Call.calloc_fs_handle true, Call.at_fatfs_mount false, Call.free_fs_handle]⟩
  else if !env.fat_info_ok then
    ⟨none, env.old_file, [Call.calloc_fs_handle true, Call.at_fatfs_mount true,
      Call.esp_vfs_fat_info false, Call.free_fs_handle, Call.at_fatfs_unmount]⟩
  else if !env.calloc_path_ok then
    ⟨none, env.old_file, [Call.calloc_fs_handle true, Call.at_fatfs_mount true,
      Call.esp_vfs_fat_info true, Call.calloc_path false, Call.free_fs_handle,
      Call.at_fatfs_unmount]⟩
  else if !env.fopen_ok then
    ⟨none, [], [Call.calloc_fs_handle true, Call.at_fatfs_mount true,
      Call.esp_vfs_fat_info true, Call.calloc_path true, Call.remove, Call.fopen false,
      Call.free_fs_handle, Call.at_fatfs_unmount]⟩
  else
    ⟨some { fs_mounted := true,
            path := some (AT_FATFS_MOUNT_POINT ++ "/".toList ++ path),
            fp := true,
            available_size := env.fs_free_size % 4294967296,
            total_size := env.fs_total_size % 4294967296,
            wrote_size := 0 },
     [], [Call.calloc_fs_handle true, Call.at_fatfs_mount true, Call.esp_vfs_fat_info true,
      Call.calloc_path true, Call.remove, Call.fopen true]⟩

/-- The function `at_http_to_fs_clean()`: the session slot afterwards and the releases performed. -/
def at_http_to_fs_clean (sp_http_to_fs : Option at_httpget_to_fs_t) :
    Option at_httpget_to_fs_t × List Call :=
  match sp_http_to_fs with
  | none => (none, [])
  | some s =>
    let c1 := if s.sync_sema then [Call.vSemaphoreDelete] else []
    let c2 := if s.url.isSome then [Call.free_url] else []
    let c3 := if s.client then [Call.esp_http_client_cleanup] else []
    let c4 := match s.fs_handle with
      | none => []
      | some h =>
        (if h.fp then [Call.fclose] else []) ++ (if h.path.isSome then [Call.free_path] else [])
          ++ (if h.fs_mounted then [Call.at_fatfs_unmount] else []) ++ [Call.free_fs_handle]
    (none, c1 ++ c2 ++ c3 ++ c4 ++ [Call.free_session])

/-- The callback `at_http_get_event_handler(evt)`, acting on the session `sp_http_to_fs` points to. -/
def at_http_get_event_handler (s : at_httpget_to_fs_t) (evt : HttpEvent) : at_httpget_to_fs_t :=
  match evt with
  | HttpEvent.HTTP_EVENT_ON_HEADER header_key header_value =>
    if header_key = "Content-Length" then
      { s with total_size := atoi header_value, is_chunked := false }
    else s
  | HttpEvent.HTTP_EVENT_ON_DATA data_len => { s with recv_size := toI32 (s.recv_size + data_len) }
  | _ => s

/-- The client dispatching a list of events to `at_http_get_event_handler`, in order. -/
def dispatch (s : at_httpget_to_fs_t) (events : List HttpEvent) : at_httpget_to_fs_t :=
  events.foldl at_http_get_event_handler s

/-! ## URL ingestion (the loop shared, statement for statement, by both setup handlers) -/

/-- Writing `bytes` into a buffer at offset `off`. -/
def buf_write (buf : List Char) (off : Nat) (bytes : List Char) : List Char :=
  buf.take off ++ bytes ++ buf.drop (off + bytes.length)

/-- State at the `break` of the ingestion loop: the URL buffer, `had_recv_len`, the bytes still
unread in the port buffer, the deliveries the front end has not made yet, and the trace. -/
structure RecvOut where
  url : List Char
  had_recv_len : Int
  port : List Char
  wakeups : List (List Char)
  trace : List Call
  deriving DecidableEq, Repr

/-- The loop `while (xSemaphoreTake(sync_sema, portMAX_DELAY)) ...` of lines 280-292 and
566-578. Each element of the first argument is one wake-up: the bytes the front end added to
the port buffer before giving the semaphore. `esp_at_port_read_data(buf, len)` hands over the
first `len` bytes of the port buffer, or all of it when it holds fewer. With no wake-up left
the task stays blocked in `xSemaphoreTake`. -/
def recv_url_loop (url_len : Int) : List (List Char) → List Char → List Char → Int →
    List Call → Option RecvOut
  | [], _, _, _, _ => none
  | d :: rest, port, url, had_recv_len, tr =>
    let avail := port ++ d
    let len := url_len - had_recv_len
    let got := avail.take len.toNat
    let port1 := avail.drop len.toNat
    let url1 := buf_write url had_recv_len.toNat got
    let had1 := had_recv_len + (got.length : Int)
    let tr1 := tr ++ [Call.xSemaphoreTake, Call.esp_at_port_read_data had_recv_len len got.length]
    if had1 = url_len then
      let remain_len := port1.length
      some ⟨url1, had1, port1, rest,
        tr1 ++ [Call.esp_at_port_exit_specific, Call.esp_at_port_get_data_length remain_len]
          ++ (if remain_len > 0 then [Call.esp_at_port_recv_data_notify remain_len] else [])⟩
    else recv_url_loop url_len rest port1 url1 had1 tr1

/-! ## Download handler -/

/-- State of the download at a program point: `ret`, the session, the file, the trace. -/
structure GetState where
  ret : Int
  s : at_httpget_to_fs_t
  file : List Char
  trace : List Call
  deriving DecidableEq, Repr

/-- What `at_setup_cmd_httpget_to_fs` leaves behind: the result code, the last value of `ret`,
the session as it was on reaching `cmd_exit` (or the early `return`), the session slot after
the handler, the destination file, and the trace. -/
structure GetResult where
  code : ResultCode
  ret : Int
  at_exit : Option at_httpget_to_fs_t
  sp_http_to_fs : Option at_httpget_to_fs_t
  file : List Char
  trace : List Call
  deriving DecidableEq, Repr

/-- The `do ... while (ret == ESP_OK && data_len > 0)` loop of lines 335-350. -/
def download_loop : List DlStep → Int → at_httpget_to_fs_t → List Char → List Call →
    Option GetState
  | [], _, _, _, _ => none
  | st :: rest, ret, s, file, tr =>
    let s1 := dispatch s st.events
    let tr1 := tr ++ [Call.esp_http_client_read st.data_len]
    if st.data_len > 0 then
      let w := at_http_to_fs_write s1.fs_handle file st.data st.data_len.toNat st.seek_ok st.accept
      let s2 := { s1 with fs_handle := w.fs_handle }
      if w.ret ≠ ESP_OK then some ⟨w.ret, s2, w.file, tr1 ++ w.calls⟩
      else if w.ret = ESP_OK ∧ st.data_len > 0 then
        download_loop rest w.ret s2 w.file (tr1 ++ w.calls)
      else some ⟨w.ret, s2, w.file, tr1 ++ w.calls⟩
    else if st.data_len < 0 then some ⟨ret, s1, file, tr1⟩
    else some ⟨ESP_OK, s1, file, tr1⟩

/-- Lines 353-362: the comparison of the expected with the written size. -/
def httpget_verdict (g : GetState) : Option GetState :=
  match g.s.fs_handle with
  | none => none
  | some h =>
    if g.s.is_chunked then some g
    else if toU32 g.s.total_size ≠ h.wrote_size then some { g with ret := ESP_FAIL }
    else some g

/-- Lines 315-362: header fetch, status and capacity guards, the download loop, the verdict.
The argument is the state after a successful `esp_http_client_open`. -/
def httpget_transfer (env : GetEnv) (g : GetState) : Option GetState :=
  let s1 := dispatch g.s env.header_events
  let tr1 := g.trace ++ [Call.esp_http_client_fetch_headers env.fetch_ret,
    Call.esp_http_client_get_status_code env.status_code]
  if env.status_code ≥ HttpStatus_BadRequest then some ⟨ESP_FAIL, s1, g.file, tr1⟩
  else
    match s1.fs_handle with
    | none => none
    | some h =>
      if h.available_size < toU32 s1.total_size then some ⟨ESP_FAIL, s1, g.file, tr1⟩
      else if !env.malloc_ok then
        some ⟨ESP_ERR_NO_MEM, s1, g.file, tr1 ++ [Call.malloc_data false]⟩
      else
        match download_loop env.steps g.ret s1 g.file (tr1 ++ [Call.malloc_data true]) with
        | none => none
        | some o => httpget_verdict { o with trace := o.trace ++ [Call.free_data] }

/-- The label `cmd_exit` of `at_setup_cmd_httpget_to_fs`: clean, then map `ret`. -/
def httpget_cmd_exit (ret : Int) (sp : Option at_httpget_to_fs_t) (file : List Char)
    (trace : List Call) : GetResult :=
  { code := if ret ≠ ESP_OK then ResultCode.ESP_AT_RESULT_CODE_ERROR
            else ResultCode.ESP_AT_RESULT_CODE_OK,
    ret := ret,
    at_exit := sp,
    sp_http_to_fs := (at_http_to_fs_clean sp).1,
    file := file,
    trace := trace ++ (at_http_to_fs_clean sp).2 }

/-- Lines 295-372: HTTP client set-up, connection, transfer and exit, from the session as it
is after the URL was received. -/
def httpget_connect (env : GetEnv) (s : at_httpget_to_fs_t) (file : List Char)
    (tr : List Call) : Option GetResult :=
  let s1 := { s with is_chunked := true }
  if !env.client_init_ok then
    some (httpget_cmd_exit ESP_FAIL (some s1) file (tr ++ [Call.esp_http_client_init false]))
  else
    let s2 := dispatch { s1 with client := true } env.open_events
    let tr2 := tr ++ [Call.esp_http_client_init true, Call.esp_http_client_set_method_get,
      Call.esp_http_client_open 0 env.open_ret]
    if env.open_ret ≠ ESP_OK then some (httpget_cmd_exit env.open_ret (some s2) file tr2)
    else
      match httpget_transfer env ⟨env.open_ret, s2, file, tr2⟩ with
      | none => none
      | some g => some (httpget_cmd_exit g.ret (some g.s) g.file g.trace)

/-- Modelled from the spec: `at_str_is_null` is a macro of the AT core headers, which are not
part of this file; a null string parameter is a missing one (`NULL`). -/
def at_str_is_null (s : Option (List Char)) : Bool := s.isNone

/-- The early `return ESP_AT_RESULT_CODE_ERROR` of the parameter checks: nothing was touched. -/
def httpget_reject (env : GetEnv) (sp0 : Option at_httpget_to_fs_t) : GetResult :=
  { code := ResultCode.ESP_AT_RESULT_CODE_ERROR, ret := ESP_OK, at_exit := sp0,
    sp_http_to_fs := sp0, file := env.old_file, trace := [] }

/-- Lines 260-372 of `at_setup_cmd_httpget_to_fs`: what the handler does once the parameters
were accepted, `dst_path` being the parsed path. -/
def httpget_run (env : GetEnv) (dst_path : List Char) : Option GetResult :=
  if !env.calloc_session_ok then
    some (httpget_cmd_exit ESP_ERR_NO_MEM none env.old_file [Call.calloc_session false])
  else
    let b := at_http_to_fs_begin env dst_path
    let s : at_httpget_to_fs_t :=
      { url := if env.calloc_url_ok
               then some (List.replicate (env.url_len + 1).toNat (Char.ofNat 0)) else none,
        total_size := 0, recv_size := 0, is_chunked := false,
        sync_sema := env.sema_ok, client := false, fs_handle := b.fs_handle }
    let tr := [Call.calloc_session true] ++ b.calls
      ++ [Call.calloc_url env.calloc_url_ok, Call.xSemaphoreCreateBinary env.sema_ok]
    match s.fs_handle, s.url with
    | some _, some buf =>
      if !s.sync_sema then some (httpget_cmd_exit ESP_ERR_NO_MEM (some s) b.file tr)
      else
        match recv_url_loop env.url_len env.wakeups [] buf 0
            (tr ++ [Call.esp_at_port_enter_specific, Call.esp_at_response_result_prompt]) with
        | none => none
        | some r => httpget_connect env { s with url := some r.url } b.file r.trace
    | _, _ => some (httpget_cmd_exit ESP_ERR_NO_MEM (some s) b.file tr)

/-- The handler `at_setup_cmd_httpget_to_fs(para_num)`; `sp0` is the value of the global
`sp_http_to_fs` when the handler is entered. -/
def at_setup_cmd_httpget_to_fs (para_num : Nat) (env : GetEnv)
    (sp0 : Option at_httpget_to_fs_t) : Option GetResult :=
  if !env.para_str_ok then some (httpget_reject env sp0)
  else if at_str_is_null env.dst_path then some (httpget_reject env sp0)
  else if !env.para_digit_ok then some (httpget_reject env sp0)
  else if env.url_len ≤ 0 ∨ env.url_len > AT_URL_LEN_MAX then some (httpget_reject env sp0)
  else if 2 ≠ para_num then some (httpget_reject env sp0)
  else
    match env.dst_path with
    | none => none
    | some dst_path => httpget_run env dst_path

/-! ## Upload: environment -/

/-- One iteration of the upload loop as the environment answers it: whether the `fseek` of
`at_fs_read` succeeds, how many bytes `fread` delivers at most, and the return value of
`esp_http_client_write` as a function of the requested length. -/
structure UlStep where
  seek_ok : Bool
  fread_cap : Nat
  write : Int → Int

/-- Everything `at_setup_cmd_fs_to_http_server` obtains from outside the file. `st_size` is the
size `stat` reports, `file` the bytes `fread` finds in the file. -/
structure PostEnv where
  para_str_ok : Bool
  dst_path : Option (List Char)
  para_digit_ok : Bool
  url_len : Int
  calloc_session_ok : Bool
  mount_ok : Bool
  calloc_fs_handle_ok : Bool
  calloc_path_ok : Bool
  stat_ok : Bool
  st_size : Nat
  file : List Char
  fopen_ok : Bool
  calloc_url_ok : Bool
  sema_ok : Bool
  wakeups : List (List Char)
  client_init_ok : Bool
  calloc_body_start_ok : Bool
  calloc_body_end_ok : Bool
  open_ret : Int
  start_write : Int → Int
  malloc_ok : Bool
  steps : List UlStep
  end_write : Int → Int
  fetch_ret : Int
  status_code : Int
  perform_ret : Int

/-! ## Upload: storage handle -/

/-- Result of `at_fs_to_http_begin`. -/
structure ReadBeginOut where
  fs_handle : Option at_read_fs_handle_t
  calls : List Call
  deriving DecidableEq, Repr

/-- The function `at_fs_to_http_begin(path)`. -/
def at_fs_to_http_begin (env : PostEnv) (path : List Char) : ReadBeginOut :=
  if !env.mount_ok then ⟨none, [Call.at_fatfs_mount false]⟩
  else if !env.calloc_fs_handle_ok then
    ⟨none, [Call.at_fatfs_mount true, Call.calloc_fs_handle false]⟩
  else if !env.calloc_path_ok then
    ⟨none, [Call.at_fatfs_mount true, Call.calloc_fs_handle true, Call.calloc_path false,
      Call.free_fs_handle, Call.at_fatfs_unmount]⟩
  else if !env.stat_ok then
    ⟨none, [Call.at_fatfs_mount true, Call.calloc_fs_handle true, Call.calloc_path true,
      Call.stat false, Call.free_path, Call.free_fs_handle, Call.at_fatfs_unmount]⟩
  else if !env.fopen_ok then
    ⟨none, [Call.at_fatfs_mount true, Call.calloc_fs_handle true, Call.calloc_path true,
      Call.stat true, Call.fopen false, Call.free_path, Call.free_fs_handle,
      Call.at_fatfs_unmount]⟩
  else
    ⟨some { fs_mounted := true,
            path := some (AT_FATFS_MOUNT_POINT ++ "/".toList ++ path),
            fp := true,
            total_size := env.st_size % 4294967296,
            had_read_size := 0 },
     [Call.at_fatfs_mount true, Call.calloc_fs_handle true, Call.calloc_path true,
      Call.stat true, Call.fopen true]⟩

/-- Result of `at_fs_read`: return value, the bytes put into `data`, the handle, libc calls. -/
structure ReadOut where
  ret : Int
  data : List Char
  fs_handle : Option at_read_fs_handle_t
  calls : List Call
  deriving DecidableEq, Repr

/-- The function `at_fs_read(fs_handle, data, len)` on a file holding `file`; `data_ok` says that `data` is
not `NULL`, `seek_ok` and `cap` are the answers of `fseek` and `fread` (which delivers at most
`cap` bytes, and never more than `len` or than the file holds past the offset). -/
def at_fs_read (fs_handle : Option at_read_fs_handle_t) (file : List Char) (data_ok : Bool)
    (len : Nat) (seek_ok : Bool) (cap : Nat) : ReadOut :=
  match fs_handle with
  | none => ⟨-ESP_ERR_INVALID_ARG, [], none, []⟩
  | some h =>
    if !h.fp ∨ !data_ok then ⟨-ESP_ERR_INVALID_ARG, [], some h, []⟩
    else if !seek_ok then ⟨ESP_FAIL, [], some h, [Call.fseek h.had_read_size false]⟩
    else
      let bytes := (file.drop h.had_read_size).take (min len cap)
      ⟨toI32 bytes.length, bytes,
        some { h with had_read_size := (h.had_read_size + bytes.length) % 4294967296 },
        [Call.fseek h.had_read_size true, Call.fread len bytes.length]⟩

/-- The function `at_fs_to_http_clean()`: the session slot afterwards and the releases performed. -/
def at_fs_to_http_clean (sp_fs_to_http : Option at_fs_to_http_server_t) :
    Option at_fs_to_http_server_t × List Call :=
  match sp_fs_to_http with
  | none => (none, [])
  | some s =>
    let c1 := if s.sync_sema then [Call.vSemaphoreDelete] else []
    let c2 := if s.url.isSome then [Call.free_url] else []
    let c3 := if s.client then [Call.esp_http_client_cleanup] else []
    let c4 := match s.fs_handle with
      | none => []
      | some h =>
        (if h.fp then [Call.fclose] else []) ++ (if h.path.isSome then [Call.free_path] else [])
          ++ (if h.fs_mounted then [Call.at_fatfs_unmount] else []) ++ [Call.free_fs_handle]
    (none, c1 ++ c2 ++ c3 ++ c4 ++ [Call.free_session])

/-! ## Upload handler -/

/-- State of the upload at a program point: `ret`, the session, the trace. -/
structure PostState where
  ret : Int
  s : at_fs_to_http_server_t
  trace : List Call
  deriving DecidableEq, Repr

/-- What `at_setup_cmd_fs_to_http_server` leaves behind (compare `GetResult`). -/
structure PostResult where
  code : ResultCode
  ret : Int
  at_exit : Option at_fs_to_http_server_t
  sp_fs_to_http : Option at_fs_to_http_server_t
  trace : List Call
  deriving DecidableEq, Repr

/-- The `do ... while (1)` loop of lines 639-663. -/
def upload_loop (file : List Char) : List UlStep → at_fs_to_http_server_t → List Call →
    Option PostState
  | [], _, _ => none
  | st :: rest, s, tr =>
    match s.fs_handle with
    | none => none
    | some h =>
      let unposted_len := toI32 ((h.total_size : Int) - (h.had_read_size : Int))
      let to_post_len := if (AT_HEAP_BUFFER_SIZE : Int) < unposted_len
        then (AT_HEAP_BUFFER_SIZE : Int) else unposted_len
      let r := at_fs_read s.fs_handle file true (toU32 to_post_len) st.seek_ok st.fread_cap
      let s1 := { s with fs_handle := r.fs_handle }
      if r.ret ≤ 0 then some ⟨ESP_FAIL, s1, tr ++ r.calls⟩
      else
        let wlen := st.write r.ret
        let tr1 := tr ++ r.calls ++ [Call.esp_http_client_write r.data r.ret wlen]
        if wlen > 0 then
          let s2 := { s1 with post_size := toI32 (s1.post_size + wlen) }
          if toU32 s2.post_size = h.total_size then some ⟨ESP_OK, s2, tr1⟩
          else upload_loop file rest s2 tr1
        else if wlen < 0 then some ⟨ESP_FAIL, s1, tr1⟩
        else some ⟨ESP_FAIL, s1, tr1⟩

/-- The local `const char *boundary = "--myboundary";`. -/
def boundary : List Char := "--myboundary".toList

/-- The text of the `Content-Type` header value formatted at line 599. -/
def content_type_text (boundary : List Char) : List Char :=
  "multipart/form-data; boundary=--".toList ++ boundary

/-- The text of the body start formatted at lines 615-617. -/
def body_start_text (boundary path : List Char) : List Char :=
  "----".toList ++ boundary
    ++ "\r\nContent-Disposition: form-data; name=\"username\"\r\n\r\nAlice\r\n----".toList
    ++ boundary
    ++ "\r\nContent-Disposition: form-data; name=\"file\"; filename=\"".toList ++ path
    ++ "\"\r\nContent-Type: application/octet-stream\r\n\r\n".toList

/-- The text of the body end formatted at line 618. -/
def body_end_text (boundary : List Char) : List Char :=
  "\r\n----".toList ++ boundary ++ "--\r\n".toList

/-- The label `cmd_exit` of `at_setup_cmd_fs_to_http_server`: free the three local buffers that
were allocated, clean, then map `ret`. -/
def post_cmd_exit (ret : Int) (sp : Option at_fs_to_http_server_t) (data body_start
    body_end : Bool) (trace : List Call) : PostResult :=
  { code := if ret ≠ ESP_OK then ResultCode.ESP_AT_RESULT_CODE_ERROR
            else ResultCode.ESP_AT_RESULT_CODE_OK,
    ret := ret,
    at_exit := sp,
    sp_fs_to_http := (at_fs_to_http_clean sp).1,
    trace := trace ++ (if data then [Call.free_data] else [])
      ++ (if body_start then [Call.free_body_start] else [])
      ++ (if body_end then [Call.free_body_end] else [])
      ++ (at_fs_to_http_clean sp).2 }

/-- Lines 679-716: response header fetch, status check, perform, exit; entered after the body
end was written and `ret` was found to be `ESP_OK`. -/
def post_response (env : PostEnv) (s : at_fs_to_http_server_t) (tr : List Call) : PostResult :=
  let tr1 := tr ++ [Call.esp_http_client_fetch_headers env.fetch_ret]
  if env.fetch_ret < 0 then post_cmd_exit env.fetch_ret (some s) true true true tr1
  else
    let tr2 := tr1 ++ [Call.esp_http_client_get_status_code env.status_code]
    if env.status_code ≠ HttpStatus_Ok then
      post_cmd_exit (-env.status_code) (some s) true true true tr2
    else
      post_cmd_exit env.perform_ret (some s) true true true
        (tr2 ++ [Call.esp_http_client_perform env.perform_ret])

/-- Lines 581-716: HTTP client set-up, multipart framing, connection, body transmission,
response and exit, from the session as it is after the URL was received. -/
def post_connect (env : PostEnv) (s : at_fs_to_http_server_t) (tr : List Call) :
    Option PostResult :=
  if !env.client_init_ok then
    some (post_cmd_exit ESP_FAIL (some s) false false false
      (tr ++ [Call.esp_http_client_init false]))
  else
    let s1 := { s with client := true }
    let value := snprintf 128 (content_type_text boundary)
    let tr1 := tr ++ [Call.esp_http_client_init true, Call.esp_http_client_set_method_post,
      Call.esp_http_client_set_header "Content-Type".toList value.1,
      Call.esp_at_http_set_header_if_config,
      Call.calloc_body_start env.calloc_body_start_ok,
      Call.calloc_body_end env.calloc_body_end_ok]
    if !env.calloc_body_start_ok ∨ !env.calloc_body_end_ok then
      some (post_cmd_exit ESP_ERR_NO_MEM (some s1) false env.calloc_body_start_ok
        env.calloc_body_end_ok tr1)
    else
      match s1.fs_handle with
      | none => none
      | some h =>
        match h.path with
        | none => none
        | some path =>
          let body_start := snprintf 512 (body_start_text boundary path)
          let start_len := body_start.2
          let body_end := snprintf 512 (body_end_text boundary)
          let end_len := body_end.2
          let write_len := toI32 ((h.total_size : Int) + start_len + end_len)
          let tr2 := tr1 ++ [Call.esp_http_client_open write_len env.open_ret]
          if env.open_ret ≠ ESP_OK then
            some (post_cmd_exit env.open_ret (some s1) false true true tr2)
          else
            let rlen := env.start_write start_len
            let tr3 := tr2 ++ [Call.esp_http_client_write body_start.1 start_len rlen]
            if rlen ≠ start_len then
              some (post_cmd_exit ESP_FAIL (some s1) false true true tr3)
            else if !env.malloc_ok then
              some (post_cmd_exit ESP_ERR_NO_MEM (some s1) false true true
                (tr3 ++ [Call.malloc_data false]))
            else
              match upload_loop env.file env.steps s1 (tr3 ++ [Call.malloc_data true]) with
              | none => none
              | some g =>
                let rlen2 := env.end_write end_len
                let tr4 := g.trace ++ [Call.esp_http_client_write body_end.1 end_len rlen2]
                if rlen2 ≠ end_len then
                  some (post_cmd_exit ESP_FAIL (some g.s) true true true tr4)
                else if g.ret ≠ ESP_OK then
                  some (post_cmd_exit g.ret (some g.s) true true true tr4)
                else some (post_response env g.s tr4)

/-- The early `return ESP_AT_RESULT_CODE_ERROR` of the parameter checks: nothing was touched. -/
def post_reject (sp0 : Option at_fs_to_http_server_t) : PostResult :=
  { code := ResultCode.ESP_AT_RESULT_CODE_ERROR, ret := ESP_OK, at_exit := sp0,
    sp_fs_to_http := sp0, trace := [] }

/-- Lines 546-716 of `at_setup_cmd_fs_to_http_server`: what the handler does once the
parameters were accepted, `dst_path` being the parsed path. -/
def post_run (env : PostEnv) (dst_path : List Char) : Option PostResult :=
  if !env.calloc_session_ok then
    some (post_cmd_exit ESP_ERR_NO_MEM none false false false [Call.calloc_session false])
  else
    let b := at_fs_to_http_begin env dst_path
    let s : at_fs_to_http_server_t :=
      { url := if env.calloc_url_ok
               then some (List.replicate (env.url_len + 1).toNat (Char.ofNat 0)) else none,
        post_size := 0, sync_sema := env.sema_ok, client := false,
        fs_handle := b.fs_handle }
    let tr := [Call.calloc_session true] ++ b.calls
      ++ [Call.calloc_url env.calloc_url_ok, Call.xSemaphoreCreateBinary env.sema_ok]
    match s.fs_handle, s.url with
    | some _, some buf =>
      if !s.sync_sema then
        some (post_cmd_exit ESP_ERR_NO_MEM (some s) false false false tr)
      else
        match recv_url_loop env.url_len env.wakeups [] buf 0
            (tr ++ [Call.esp_at_port_enter_specific, Call.esp_at_response_result_prompt]) with
        | none => none
        | some r => post_connect env { s with url := some r.url } r.trace
    | _, _ => some (post_cmd_exit ESP_ERR_NO_MEM (some s) false false false tr)

/-- The handler `at_setup_cmd_fs_to_http_server(para_num)`; `sp0` is the value of the global
`sp_fs_to_http` when the handler is entered. -/
def at_setup_cmd_fs_to_http_server (para_num : Nat) (env : PostEnv)
    (sp0 : Option at_fs_to_http_server_t) : Option PostResult :=
  if !env.para_str_ok then some (post_reject sp0)
  else if at_str_is_null env.dst_path then some (post_reject sp0)
  else if !env.para_digit_ok then some (post_reject sp0)
  else if env.url_len ≤ 0 ∨ env.url_len > AT_URL_LEN_MAX then some (post_reject sp0)
  else if 2 ≠ para_num then some (post_reject sp0)
  else
    match env.dst_path with
    | none => none
    | some dst_path => post_run env dst_path

/-! ## Vocabulary of the statements -/

/-- A `Content-Length` response header with value `v`, as the client reports it. -/
def content_length (v : String) : HttpEvent := HttpEvent.HTTP_EVENT_ON_HEADER "Content-Length" v

/-- A body read that returned a positive length and whose storage write succeeds: `fseek`
succeeds and `fwrite` accepts all the bytes. -/
def DlStep.delivers (st : DlStep) : Prop :=
  0 < st.data_len ∧ st.seek_ok = true ∧ st.data_len.toNat ≤ st.accept

instance (st : DlStep) : Decidable st.delivers := by
  unfold DlStep.delivers; infer_instance

/-- The sum of the lengths returned by a sequence of body reads. -/
def delivered (steps : List DlStep) : Nat := (steps.map fun st => st.data_len.toNat).sum

/-- All the events the client dispatched during a sequence of body reads. -/
def step_events (steps : List DlStep) : List HttpEvent := steps.flatMap fun st => st.events

/-- All the bytes a sequence of body reads put into the buffer, in order. -/
def step_data (steps : List DlStep) : List Char := steps.flatMap fun st => st.data

/-- The parameters pass the checks of lines 239-258, every resource of lines 260-274 is
obtained, the front end delivers at least `url_len` bytes, the HTTP client is created and the
connection opens. -/
def GetEnv.connects (env : GetEnv) : Prop :=
  env.para_str_ok = true ∧ env.dst_path.isSome = true ∧ env.para_digit_ok = true ∧
  0 < env.url_len ∧ env.url_len ≤ AT_URL_LEN_MAX ∧
  env.calloc_session_ok = true ∧ env.calloc_fs_handle_ok = true ∧ env.mount_ok = true ∧
  env.fat_info_ok = true ∧ env.calloc_path_ok = true ∧ env.fopen_ok = true ∧
  env.calloc_url_ok = true ∧ env.sema_ok = true ∧
  env.url_len ≤ env.wakeups.flatten.length ∧
  env.client_init_ok = true ∧ env.open_ret = ESP_OK

instance (env : GetEnv) : Decidable env.connects := by
  unfold GetEnv.connects; infer_instance

/-- The storage handle `at_http_to_fs_begin` returns when every step of it succeeds. -/
def GetEnv.fresh_handle (env : GetEnv) (path : List Char) : at_write_fs_handle_t :=
  { fs_mounted := true, path := some (AT_FATFS_MOUNT_POINT ++ "/".toList ++ path), fp := true,
    available_size := env.fs_free_size % 4294967296,
    total_size := env.fs_total_size % 4294967296, wrote_size := 0 }

/-- The expected size the session holds when the capacity guard of line 322 is evaluated: the
value the events of `open` and `fetch_headers` left, starting from the zero of `calloc`. -/
def GetEnv.expected_size (env : GetEnv) : Int :=
  (dispatch ⟨none, 0, 0, true, false, false, none⟩
    (env.open_events ++ env.header_events)).total_size

/-- The value of `wrote_size` in the session a handler result reports, if there is one. -/
def GetResult.wrote_size (r : GetResult) : Option Nat :=
  (r.at_exit.bind fun s => s.fs_handle).map fun h => h.wrote_size

/-- The calls of the URL ingestion loop. -/
def Call.is_port_call : Call → Bool
  | Call.xSemaphoreTake => true
  | Call.esp_at_port_read_data _ _ _ => true
  | Call.esp_at_port_exit_specific => true
  | Call.esp_at_port_get_data_length _ => true
  | Call.esp_at_port_recv_data_notify _ => true
  | _ => false

/-- The calls that move the response body: a body read, and the `fseek` and `fwrite` of
`at_http_to_fs_write`. -/
def Call.is_body_transfer : Call → Bool
  | Call.esp_http_client_read _ => true
  | Call.fseek _ _ => true
  | Call.fwrite _ _ => true
  | _ => false

/-- The calls that open the HTTP connection or write to it. -/
def Call.is_http_send : Call → Bool
  | Call.esp_http_client_open _ _ => true
  | Call.esp_http_client_write _ _ _ => true
  | _ => false

/-- The calls made on the HTTP connection of the upload. -/
def Call.is_http_call : Call → Bool
  | Call.esp_http_client_open _ _ => true
  | Call.esp_http_client_write _ _ _ => true
  | Call.esp_http_client_fetch_headers _ => true
  | Call.esp_http_client_get_status_code _ => true
  | Call.esp_http_client_perform _ => true
  | _ => false

/-- The byte count an `esp_http_client_write` call returned; 0 for any other call. -/
def Call.http_write_ret : Call → Int
  | Call.esp_http_client_write _ _ ret => ret
  | _ => 0

/-- The byte count an `esp_http_client_write` call was asked to write; 0 for any other call. -/
def Call.http_write_len : Call → Int
  | Call.esp_http_client_write _ len _ => len
  | _ => 0

/-- The sum of the byte counts returned by the `esp_http_client_write` calls of a trace. -/
def http_written (tr : List Call) : Int := (tr.map Call.http_write_ret).sum

/-- The sum of the byte counts requested in the `esp_http_client_write` calls of a trace. -/
def http_requested (tr : List Call) : Int := (tr.map Call.http_write_len).sum

/-- For an `esp_http_client_write` call: the number of bytes the buffer passed holds, and the
length the call asks to write from it. -/
def Call.write_shape : Call → Option (Nat × Int)
  | Call.esp_http_client_write buf len _ => some (buf.length, len)
  | _ => none

/-- The parameters pass the checks of lines 525-544, every resource of lines 546-560 is
obtained, the front end delivers at least `url_len` bytes, the HTTP client is created and the
two framing buffers are allocated. -/
def PostEnv.connects (env : PostEnv) : Prop :=
  env.para_str_ok = true ∧ env.dst_path.isSome = true ∧ env.para_digit_ok = true ∧
  0 < env.url_len ∧ env.url_len ≤ AT_URL_LEN_MAX ∧
  env.calloc_session_ok = true ∧ env.mount_ok = true ∧ env.calloc_fs_handle_ok = true ∧
  env.calloc_path_ok = true ∧ env.stat_ok = true ∧ env.fopen_ok = true ∧
  env.calloc_url_ok = true ∧ env.sema_ok = true ∧
  env.url_len ≤ env.wakeups.flatten.length ∧
  env.client_init_ok = true ∧ env.calloc_body_start_ok = true ∧
  env.calloc_body_end_ok = true

instance (env : PostEnv) : Decidable env.connects := by
  unfold PostEnv.connects; infer_instance

/-- The storage handle `at_fs_to_http_begin` returns when every step of it succeeds. -/
def PostEnv.fresh_handle (env : PostEnv) (path : List Char) : at_read_fs_handle_t :=
  { fs_mounted := true, path := some (AT_FATFS_MOUNT_POINT ++ "/".toList ++ path), fp := true,
    total_size := env.st_size % 4294967296, had_read_size := 0 }

/-- The body length of the upload of the file at the relative path `dst_path`: the length of
the formatted body start, plus the file size `stat` reports, plus the length of the formatted
body end. -/
def PostEnv.body_length (env : PostEnv) (dst_path : List Char) : Int :=
  ((body_start_text boundary (AT_FATFS_MOUNT_POINT ++ "/".toList ++ dst_path)).length : Int)
    + (env.st_size : Int) + ((body_end_text boundary).length : Int)

/-- The releases `at_http_to_fs_clean` and `at_fs_to_http_clean` can perform, in the order of
their statements in the source. -/
def release_order : List Call :=
  [Call.vSemaphoreDelete, Call.free_url, Call.esp_http_client_cleanup, Call.fclose,
   Call.free_path, Call.at_fatfs_unmount, Call.free_fs_handle, Call.free_session]

/-- Whether a download session holds the resource a release call gives back: the semaphore,
the URL buffer, the HTTP client, the storage handle and in it the file, the path and the mount;
the session structure itself is always held. -/
def at_httpget_to_fs_t.holds (s : at_httpget_to_fs_t) : Call → Bool
  | Call.vSemaphoreDelete => s.sync_sema
  | Call.free_url => s.url.isSome
  | Call.esp_http_client_cleanup => s.client
  | Call.fclose => s.fs_handle.any fun h => h.fp
  | Call.free_path => s.fs_handle.any fun h => h.path.isSome
  | Call.at_fatfs_unmount => s.fs_handle.any fun h => h.fs_mounted
  | Call.free_fs_handle => s.fs_handle.isSome
  | Call.free_session => true
  | _ => false

/-- Whether an upload session holds the resource a release call gives back. -/
def at_fs_to_http_server_t.holds (s : at_fs_to_http_server_t) : Call → Bool
  | Call.vSemaphoreDelete => s.sync_sema
  | Call.free_url => s.url.isSome
  | Call.esp_http_client_cleanup => s.client
  | Call.fclose => s.fs_handle.any fun h => h.fp
  | Call.free_path => s.fs_handle.any fun h => h.path.isSome
  | Call.at_fatfs_unmount => s.fs_handle.any fun h => h.fs_mounted
  | Call.free_fs_handle => s.fs_handle.isSome
  | Call.free_session => true
  | _ => false

/-- The bytes an `esp_http_client_write` call put on the connection: the first `ret` bytes of
the buffer it was passed; none for any other call. -/
def Call.http_write_bytes : Call → List Char
  | Call.esp_http_client_write buf _ ret => buf.take ret.toNat
  | _ => []

/-- The concatenation of all bytes written to the HTTP connection in a trace. -/
def http_sent (tr : List Call) : List Char := tr.flatMap Call.http_write_bytes

/-- The multipart body in the words of the specification, for the boundary parameter value `b`
of the `Content-Type` header, the path `path` of the file and its bytes `file`. -/
def multipart_body (b path file : List Char) : List Char :=
  "--".toList ++ b
    ++ "\r\nContent-Disposition: form-data; name=\"username\"\r\n\r\nAlice\r\n--".toList ++ b
    ++ "\r\nContent-Disposition: form-data; name=\"file\"; filename=\"".toList ++ path
    ++ "\"\r\nContent-Type: application/octet-stream\r\n\r\n".toList ++ file
    ++ "\r\n--".toList ++ b ++ "--\r\n".toList

/-- A call at which the upload loop fails: an `fseek` that fails or an `fread` whose count is
not positive as an `int` (a file read returning `<= 0`), or an HTTP write returning `<= 0`. -/
def Call.is_failing_step : Call → Bool
  | Call.fseek _ ok => !ok
  | Call.fread _ ret => decide (toI32 ret ≤ 0)
  | Call.esp_http_client_write _ _ ret => decide (ret ≤ 0)
  | _ => false

/-- The file-streaming loop of the upload on its own: run on the file and the script of the
environment from the fresh storage handle, `post_size` 0 and an empty trace. -/
def PostEnv.file_loop (env : PostEnv) (dst_path : List Char) : Option PostState :=
  upload_loop env.file env.steps
    { url := none, post_size := 0, sync_sema := false, client := false,
      fs_handle := some (env.fresh_handle dst_path) } []

/-! ## Example environments -/

/-- A body read that returns the bytes of `c`, reported by one data event, and whose write the
file system accepts. -/
def read_of (c : String) : DlStep :=
  ⟨c.length, c.toList, [HttpEvent.HTTP_EVENT_ON_DATA c.length], true, AT_HEAP_BUFFER_SIZE⟩

/-- A body read that returns 0: the connection was closed. -/
def read_closed : DlStep := ⟨0, [], [HttpEvent.HTTP_EVENT_ON_FINISH], true, AT_HEAP_BUFFER_SIZE⟩

/-- A download of a 10-byte resource announced by `Content-Length: 10` and read as 3, 3, 3, 1
and 0 bytes; the URL of 5 bytes arrives in two deliveries. -/
def env_ten : GetEnv :=
  { para_str_ok := true, dst_path := some "a.bin".toList, para_digit_ok := true, url_len := 5,
    calloc_session_ok := true, calloc_fs_handle_ok := true, mount_ok := true,
    fat_info_ok := true, fs_total_size := 1000000, fs_free_size := 500000,
    calloc_path_ok := true, fopen_ok := true, old_file := "old".toList, calloc_url_ok := true,
    sema_ok := true, wakeups := ["ht".toList, "tp:".toList], client_init_ok := true,
    open_ret := 0, open_events := [HttpEvent.HTTP_EVENT_ON_CONNECTED], fetch_ret := 10,
    header_events := [content_length "10"], status_code := 200, malloc_ok := true,
    steps := [read_of "abc", read_of "def", read_of "ghi", read_of "j", read_closed] }

/-- The same download when the connection closes after 6 of the 10 bytes. -/
def env_short : GetEnv := { env_ten with steps := [read_of "abc", read_of "def", read_closed] }

/-- The same resource sent without a `Content-Length` header. -/
def env_chunked : GetEnv :=
  { env_ten with
    header_events := [HttpEvent.HTTP_EVENT_ON_HEADER "Transfer-Encoding" "chunked"] }

/-- The download of `env_ten` onto a volume with 4 free bytes. -/
def env_full : GetEnv := { env_ten with fs_free_size := 4 }

/-- A chunked download whose second body read fails with -1. -/
def env_aborted : GetEnv :=
  { env_chunked with steps := [read_of "abc", ⟨-1, [], [HttpEvent.HTTP_EVENT_ERROR], true, 0⟩] }

/-- The download of `env_ten` asked for with a URL length of 8193. -/
def env_url_too_long : GetEnv := { env_ten with url_len := 8193 }

/-- An upload of the 5-byte file `hello`; every call of the environment succeeds. -/
def env_upload : PostEnv :=
  { para_str_ok := true, dst_path := some "a.bin".toList, para_digit_ok := true, url_len := 5,
    calloc_session_ok := true, mount_ok := true, calloc_fs_handle_ok := true,
    calloc_path_ok := true, stat_ok := true, st_size := 5, file := "hello".toList,
    fopen_ok := true, calloc_url_ok := true, sema_ok := true,
    wakeups := ["ht".toList, "tp:".toList], client_init_ok := true,
    calloc_body_start_ok := true, calloc_body_end_ok := true, open_ret := 0,
    start_write := id, malloc_ok := true,
    steps := [⟨true, AT_HEAP_BUFFER_SIZE, id⟩, ⟨true, AT_HEAP_BUFFER_SIZE, id⟩],
    end_write := id, fetch_ret := 0, status_code := 200, perform_ret := 0 }

/-- The upload of `env_upload` when the file is empty. -/
def env_upload_empty : PostEnv := { env_upload with st_size := 0, file := [] }

/-- The upload of `env_upload` when the file lies 80 directories deep: the path parameter
`dir1/dir1/.../dir1/a.bin` has 405 characters. -/
def env_upload_long : PostEnv :=
  { env_upload with
    dst_path := some ((List.replicate 80 "dir1/".toList).flatten ++ "a.bin".toList) }

/-- The download session as `at_setup_cmd_httpget_to_fs` has it at line 302, before the HTTP
client is created: URL received, `is_chunked` just set, no size known. -/
def session_before_client : at_httpget_to_fs_t :=
  { url := some "http:".toList, total_size := 0, recv_size := 0, is_chunked := true,
    sync_sema := true, client := false, fs_handle := none }

/-- The upload of `env_upload` when the server answers with the status code 0. -/
def env_upload_status_zero : PostEnv := { env_upload with status_code := 0 }

/-- The upload of `env_upload` when the HTTP write of the file chunk fails with -1. -/
def env_upload_aborted : PostEnv :=
  { env_upload with steps := [⟨true, AT_HEAP_BUFFER_SIZE, fun _ => -1⟩] }

/-! ## Event handler -/

theorem dispatch_nil (s : at_httpget_to_fs_t) : dispatch s [] = s := rfl

theorem dispatch_cons (s : at_httpget_to_fs_t) (e : HttpEvent) (es : List HttpEvent) :
    dispatch s (e :: es) = dispatch (at_http_get_event_handler s e) es := rfl

theorem dispatch_append (s : at_httpget_to_fs_t) (a b : List HttpEvent) :
    dispatch s (a ++ b) = dispatch (dispatch s a) b := by
  simp [dispatch, List.foldl_append]

theorem handler_fs_handle (s : at_httpget_to_fs_t) (e : HttpEvent) :
    (at_http_get_event_handler s e).fs_handle = s.fs_handle := by
  cases e <;> simp [at_http_get_event_handler]
  split <;> rfl

theorem dispatch_fs_handle (evs : List HttpEvent) (s : at_httpget_to_fs_t) :
    (dispatch s evs).fs_handle = s.fs_handle := by
  induction evs generalizing s with
  | nil => rfl
  | cons e es ih => rw [dispatch_cons, ih, handler_fs_handle]

theorem handler_with_fs (s : at_httpget_to_fs_t) (x : Option at_write_fs_handle_t)
    (e : HttpEvent) :
    at_http_get_event_handler { s with fs_handle := x } e
      = { at_http_get_event_handler s e with fs_handle := x } := by
  cases e <;> simp [at_http_get_event_handler]
  split <;> rfl

theorem dispatch_with_fs (evs : List HttpEvent) (s : at_httpget_to_fs_t)
    (x : Option at_write_fs_handle_t) :
    dispatch { s with fs_handle := x } evs = { dispatch s evs with fs_handle := x } := by
  induction evs generalizing s with
  | nil => rfl
  | cons e es ih => rw [dispatch_cons, dispatch_cons, handler_with_fs, ih]

/-- Events without a `Content-Length` header leave the chunked flag and the expected size. -/
theorem dispatch_no_content_length (evs : List HttpEvent) (s : at_httpget_to_fs_t)
    (h : ∀ v, content_length v ∉ evs) :
    (dispatch s evs).is_chunked = s.is_chunked ∧ (dispatch s evs).total_size = s.total_size := by
  induction evs generalizing s with
  | nil => exact ⟨rfl, rfl⟩
  | cons e es ih =>
    have hes : ∀ v, content_length v ∉ es := fun v hv => h v (List.mem_cons_of_mem _ hv)
    rw [dispatch_cons]
    obtain ⟨h1, h2⟩ := ih (at_http_get_event_handler s e) hes
    rw [h1, h2]
    cases e <;> simp [at_http_get_event_handler]
    rename_i k v
    have hk : k ≠ "Content-Length" := by
      intro hk
      exact h v (by simp [content_length, hk])
    simp [hk]

/-- When every `Content-Length` header among the events carries the value `n`, and either the
length was already known to be `n` or one of the events is such a header, then afterwards the
chunked flag is cleared and the expected size is `n`. -/
theorem dispatch_content_length (n : Int) (evs : List HttpEvent) (s : at_httpget_to_fs_t)
    (hall : ∀ v, content_length v ∈ evs → atoi v = n)
    (h : (s.is_chunked = false ∧ s.total_size = n) ∨ ∃ v, content_length v ∈ evs) :
    (dispatch s evs).is_chunked = false ∧ (dispatch s evs).total_size = n := by
  induction evs generalizing s with
  | nil =>
    rcases h with h | ⟨v, hv⟩
    · exact h
    · simp at hv
  | cons e es ih =>
    rw [dispatch_cons]
    apply ih
    · intro v hv
      exact hall v (List.mem_cons_of_mem _ hv)
    · by_cases he : ∃ v, e = content_length v
      · obtain ⟨v, rfl⟩ := he
        left
        have := hall v (by simp)
        simp [at_http_get_event_handler, content_length, this]
      · rcases h with h | ⟨v, hv⟩
        · left
          cases e <;> simp_all [at_http_get_event_handler, content_length]
        · right
          refine ⟨v, ?_⟩
          rcases List.mem_cons.mp hv with hv | hv
          · exact absurd ⟨v, hv.symm⟩ he
          · exact hv

theorem handler_congr (s t : at_httpget_to_fs_t) (e : HttpEvent)
    (h1 : s.is_chunked = t.is_chunked) (h2 : s.total_size = t.total_size) :
    (at_http_get_event_handler s e).is_chunked = (at_http_get_event_handler t e).is_chunked ∧
    (at_http_get_event_handler s e).total_size = (at_http_get_event_handler t e).total_size := by
  cases e <;> simp [at_http_get_event_handler, h1, h2]
  split <;> simp [h1, h2]

/-- The chunked flag and the expected size after a list of events depend only on their values
before it. -/
theorem dispatch_congr (evs : List HttpEvent) (s t : at_httpget_to_fs_t)
    (h1 : s.is_chunked = t.is_chunked) (h2 : s.total_size = t.total_size) :
    (dispatch s evs).is_chunked = (dispatch t evs).is_chunked ∧
    (dispatch s evs).total_size = (dispatch t evs).total_size := by
  induction evs generalizing s t with
  | nil => exact ⟨h1, h2⟩
  | cons e es ih =>
    rw [dispatch_cons, dispatch_cons]
    exact ih _ _ (handler_congr s t e h1 h2).1 (handler_congr s t e h1 h2).2

/-! ## Machine integers and libc -/

theorem atoi_le (v : String) : atoi v ≤ 2147483647 := by
  unfold atoi
  simp only
  split
  · exact le_trans (max_le (by omega) (by norm_num)) (by norm_num : (0 : Int) ≤ 2147483647)
  · exact min_le_right _ _

theorem toU32_natCast (n : Nat) (h : n < 4294967296) : toU32 (n : Int) = n := by
  unfold toU32
  omega

/-! ## Download loop -/

theorem write_succeeds (h : at_write_fs_handle_t) (file data : List Char) (len accept : Nat)
    (hfp : h.fp = true) (hacc : len ≤ accept) :
    at_http_to_fs_write (some h) file data len true accept
      = ⟨ESP_OK, some { h with wrote_size := (h.wrote_size + len) % 4294967296 },
          fwrite_at file h.wrote_size (data.take len),
          [Call.fseek h.wrote_size true, Call.fwrite len len]⟩ := by
  simp [at_http_to_fs_write, hfp, Nat.min_eq_left hacc]

theorem delivered_cons (st : DlStep) (rest : List DlStep) :
    delivered (st :: rest) = st.data_len.toNat + delivered rest := by
  simp [delivered]

theorem step_events_cons (st : DlStep) (rest : List DlStep) :
    step_events (st :: rest) = st.events ++ step_events rest := by
  simp [step_events]

theorem step_data_cons (st : DlStep) (rest : List DlStep) :
    step_data (st :: rest) = st.data ++ step_data rest := by
  simp [step_data]

theorem fwrite_at_end (file bytes : List Char) :
    fwrite_at file file.length bytes = file ++ bytes := by
  simp [fwrite_at]

/-- The download loop on reads that deliver data, followed by a read that returns zero or a
negative value: it ends there, `ret` is still `ESP_OK`, every delivered length was added to
`wrote_size`, the chunked flag and expected size are what the dispatched events made them, and,
when the file held `wrote_size` bytes and the counter does not wrap, the delivered bytes were
appended to the file in order. -/
theorem download_loop_delivers (pre : List DlStep) (last : DlStep) (post : List DlStep)
    (hpre : ∀ st ∈ pre, st.delivers) (hlast : last.data_len ≤ 0)
    (s : at_httpget_to_fs_t) (file : List Char) (tr : List Call) (h : at_write_fs_handle_t)
    (hs : s.fs_handle = some h) (hfp : h.fp = true) (hw : h.wrote_size < 4294967296) :
    ∃ o, download_loop (pre ++ last :: post) ESP_OK s file tr = some o ∧ o.ret = ESP_OK ∧
      o.s.fs_handle
        = some { h with wrote_size := (h.wrote_size + delivered pre) % 4294967296 } ∧
      o.s.is_chunked = (dispatch s (step_events (pre ++ [last]))).is_chunked ∧
      o.s.total_size = (dispatch s (step_events (pre ++ [last]))).total_size ∧
      ((∀ st ∈ pre, st.data.length = st.data_len.toNat) → h.wrote_size = file.length →
        file.length + delivered pre < 4294967296 → o.file = file ++ step_data pre) := by
  induction pre generalizing s file tr h with
  | nil =>
    have hd : (dispatch s last.events).fs_handle = some h := by rw [dispatch_fs_handle, hs]
    have hmod : h.wrote_size % 4294967296 = h.wrote_size := Nat.mod_eq_of_lt hw
    by_cases h0 : last.data_len < 0
    · have : ¬ last.data_len > 0 := by omega
      simp [download_loop, this, h0, hd, delivered, step_events, hmod, step_data]
    · have : ¬ last.data_len > 0 := by omega
      simp [download_loop, this, h0, hd, delivered, step_events, hmod, step_data]
  | cons st pre ih =>
    obtain ⟨hpos, hseek, hacc⟩ := hpre st (by simp)
    have hd : (dispatch s st.events).fs_handle = some h := by rw [dispatch_fs_handle, hs]
    have hrest : ∀ x ∈ pre, x.delivers := fun x hx => hpre x (List.mem_cons_of_mem _ hx)
    obtain ⟨o, ho, hret, hfs, hch, htot, hfile⟩ := ih hrest
      { dispatch s st.events with
        fs_handle := some { h with wrote_size := (h.wrote_size + st.data_len.toNat) % 4294967296 } }
      (fwrite_at file h.wrote_size (st.data.take st.data_len.toNat))
      (tr ++ [Call.esp_http_client_read st.data_len]
        ++ [Call.fseek h.wrote_size true, Call.fwrite st.data_len.toNat st.data_len.toNat])
      { h with wrote_size := (h.wrote_size + st.data_len.toNat) % 4294967296 }
      rfl hfp (Nat.mod_lt _ (by norm_num))
    refine ⟨o, ?_, hret, ?_, ?_, ?_, ?_⟩
    · rw [← ho]
      simp only [List.cons_append]
      rw [download_loop]
      simp [hpos, hd, hseek, write_succeeds h file st.data _ _ hfp hacc, ESP_OK]
    · rw [hfs, delivered_cons]
      simp [Nat.add_assoc]
    · rw [hch, List.cons_append, step_events_cons, dispatch_append, dispatch_with_fs]
    · rw [htot, List.cons_append, step_events_cons, dispatch_append, dispatch_with_fs]
    · intro hdata hwf hbound
      have hlen : st.data.length = st.data_len.toNat := hdata st (by simp)
      rw [delivered_cons] at hbound
      have htake : st.data.take st.data_len.toNat = st.data := by
        rw [← hlen]; exact List.take_length _
      have hfw : fwrite_at file h.wrote_size (st.data.take st.data_len.toNat) = file ++ st.data := by
        rw [htake, hwf, fwrite_at_end]
      rw [hfile (fun x hx => hdata x (List.mem_cons_of_mem _ hx))
        (by
          show (h.wrote_size + st.data_len.toNat) % 4294967296 = _
          rw [hfw, List.length_append, hwf, hlen, Nat.mod_eq_of_lt (by omega)])
        (by rw [hfw, List.length_append, hlen]; omega)]
      rw [hfw, step_data_cons, List.append_assoc]

theorem delivered_eq_length (pre : List DlStep)
    (hdata : ∀ st ∈ pre, st.data.length = st.data_len.toNat) :
    delivered pre = (step_data pre).length := by
  induction pre with
  | nil => rfl
  | cons st pre ih =>
    rw [delivered_cons, step_data_cons, List.length_append,
      ih (fun x hx => hdata x (List.mem_cons_of_mem _ hx)), hdata st (by simp)]

/-! ## URL ingestion -/

theorem buf_write_at_end (done rest got : List Char) :
    buf_write (done ++ rest) done.length got = done ++ got ++ rest.drop got.length := by
  simp [buf_write]

/-- The ingestion loop started with `had_recv_len` bytes received (`done`), an empty port buffer
and enough bytes still to be delivered: it ends with exactly `url_len` bytes received, these
being the next bytes of the stream in order; what it did not read is still in the port buffer
or undelivered; every port read asks for `url_len - had_recv_len` bytes at that offset. -/
theorem recv_url_loop_spec (L : Int) (wakeups : List (List Char)) (done rest : List Char)
    (had : Int) (tr : List Call) (hhad : had = done.length) (hlt : had < L)
    (hdeliv : L - had ≤ wakeups.flatten.length) :
    ∃ r, recv_url_loop L wakeups [] (done ++ rest) had tr = some r ∧
      r.had_recv_len = L ∧
      r.url = done ++ wakeups.flatten.take (L - had).toNat ++ rest.drop (L - had).toNat ∧
      r.port ++ r.wakeups.flatten = wakeups.flatten.drop (L - had).toNat ∧
      (∀ off len ret, Call.esp_at_port_read_data off len ret ∈ r.trace →
        Call.esp_at_port_read_data off len ret ∈ tr ∨
          (len = L - off ∧ 0 ≤ off ∧ off < L ∧ off + ret ≤ L)) := by
  induction wakeups generalizing done rest had tr with
  | nil => simp at hdeliv; omega
  | cons d ws ih =>
    have hn : ((L - had).toNat : Int) = L - had := Int.toNat_of_nonneg (by omega)
    have hhn : had.toNat = done.length := by omega
    rw [recv_url_loop]
    simp only [List.nil_append, hhn, buf_write_at_end]
    by_cases hfull : (L - had).toNat ≤ d.length
    · have hgot : (d.take (L - had).toNat).length = (L - had).toNat := by
        simp [List.length_take, hfull]
      rw [if_pos (by rw [hgot, hn]; ring)]
      refine ⟨_, rfl, ?_, ?_, ?_, ?_⟩
      · simp only [hgot, hn]; ring
      · simp only [hgot, List.flatten_cons]
        rw [List.take_append_of_le_length hfull]
      · simp only [List.flatten_cons]
        rw [List.drop_append_of_le_length hfull]
      · intro off len ret hmem
        simp only [List.mem_append, List.mem_cons, List.mem_singleton, List.not_mem_nil,
          or_false] at hmem
        rcases hmem with ((hmem | hmem | hmem) | hmem | hmem) | hmem
        · exact Or.inl hmem
        · cases hmem
        · injection hmem with e1 e2 e3
          subst e1 e2 e3
          right
          rw [hgot]
          omega
        · cases hmem
        · cases hmem
        · split at hmem <;> simp at hmem
    · have hshort : d.length < (L - had).toNat := by omega
      have hgot : d.take (L - had).toNat = d := List.take_of_length_le (by omega)
      have hdrop : d.drop (L - had).toNat = [] := List.drop_of_length_le (by omega)
      simp only [List.flatten_cons, List.length_append] at hdeliv
      simp only [hgot, hdrop]
      rw [if_neg (by omega)]
      obtain ⟨r, hr, h1, h2, h3, h4⟩ := ih (done ++ d) (rest.drop d.length)
        (had + d.length)
        (tr ++ [Call.xSemaphoreTake, Call.esp_at_port_read_data had (L - had) d.length])
        (by simp [hhad]) (by omega) (by push_cast at hdeliv ⊢; omega)
      have hsub : (L - (had + (d.length : Int))).toNat = (L - had).toNat - d.length := by omega
      refine ⟨r, hr, h1, ?_, ?_, ?_⟩
      · rw [h2, hsub, List.flatten_cons, List.take_append_eq_append_take,
          List.take_of_length_le (by omega : d.length ≤ (L - had).toNat), List.drop_drop]
        simp only [List.append_assoc]
        rw [show d.length + ((L - had).toNat - d.length) = (L - had).toNat by omega]
      · rw [h3, hsub, List.flatten_cons, List.drop_append_eq_append_drop,
          List.drop_of_length_le (by omega : d.length ≤ (L - had).toNat)]
        simp
      · intro off len ret hmem
        rcases h4 off len ret hmem with hmem | hmem
        · simp only [List.mem_append, List.mem_cons, List.mem_singleton, List.not_mem_nil,
            or_false] at hmem
          rcases hmem with hmem | hmem | hmem
          · exact Or.inl hmem
          · cases hmem
          · injection hmem with e1 e2 e3
            subst e1 e2 e3
            right
            omega
        · exact Or.inr hmem

/-- The ingestion loop adds only port calls to the trace. -/
theorem recv_url_loop_trace (L : Int) (wakeups : List (List Char)) (port url : List Char)
    (had : Int) (tr : List Call) (r : RecvOut)
    (h : recv_url_loop L wakeups port url had tr = some r) :
    ∀ c ∈ r.trace, c ∈ tr ∨ c.is_port_call = true := by
  induction wakeups generalizing port url had tr with
  | nil => simp [recv_url_loop] at h
  | cons d ws ih =>
    rw [recv_url_loop] at h
    simp only at h
    split at h
    · injection h with h
      subst h
      intro c hc
      simp only [List.mem_append, List.mem_cons, List.mem_singleton, List.not_mem_nil,
        or_false] at hc
      rcases hc with ((hc | hc | hc) | hc | hc) | hc
      · exact Or.inl hc
      · subst hc; exact Or.inr rfl
      · subst hc; exact Or.inr rfl
      · subst hc; exact Or.inr rfl
      · subst hc; exact Or.inr rfl
      · split at hc
        · simp at hc; subst hc; exact Or.inr rfl
        · simp at hc
    · intro c hc
      rcases ih _ _ _ _ h c hc with hc | hc
      · simp only [List.mem_append, List.mem_cons, List.mem_singleton, List.not_mem_nil,
          or_false] at hc
        rcases hc with hc | hc | hc
        · exact Or.inl hc
        · subst hc; exact Or.inr rfl
        · subst hc; exact Or.inr rfl
      · exact Or.inr hc

/-! ## Download handler -/

theorem clean_no_body_transfer (sp : Option at_httpget_to_fs_t) :
    ∀ c ∈ (at_http_to_fs_clean sp).2, c.is_body_transfer = false := by
  intro c hc
  cases sp with
  | none => simp [at_http_to_fs_clean] at hc
  | some s =>
    simp only [at_http_to_fs_clean, List.mem_append, List.mem_singleton] at hc
    rcases hc with (((hc | hc) | hc) | hc) | hc
    · split at hc <;> simp at hc; subst hc; rfl
    · split at hc <;> simp at hc; subst hc; rfl
    · split at hc <;> simp at hc; subst hc; rfl
    · split at hc
      · simp at hc
      · simp only [List.mem_append, List.mem_singleton] at hc
        rcases hc with ((hc | hc) | hc) | hc
        · split at hc <;> simp at hc; subst hc; rfl
        · split at hc <;> simp at hc; subst hc; rfl
        · split at hc <;> simp at hc; subst hc; rfl
        · subst hc; rfl
    · subst hc; rfl

/-- On an environment that `connects`, the handler is the transfer of lines 315-362 from the
session as the `open` events left it, followed by `cmd_exit`. -/
theorem httpget_connects (env : GetEnv) (sp0 : Option at_httpget_to_fs_t)
    (h : env.connects) :
    ∃ path url tr, env.dst_path = some path ∧ (∀ c ∈ tr, c.is_body_transfer = false) ∧
      at_setup_cmd_httpget_to_fs 2 env sp0
        = (httpget_transfer env ⟨ESP_OK,
            dispatch { url := some url, total_size := 0, recv_size := 0, is_chunked := true,
                       sync_sema := true, client := true,
                       fs_handle := some (env.fresh_handle path) } env.open_events,
            [], tr⟩).map fun g => httpget_cmd_exit g.ret (some g.s) g.file g.trace := by
  obtain ⟨h1, h2, h3, h4, h5, h6, h7, h8, h9, h10, h11, h12, h13, h14, h15, h16⟩ := h
  obtain ⟨path, hpath⟩ := Option.isSome_iff_exists.mp h2
  have hL : (env.url_len + 1).toNat = env.url_len.toNat + 1 := by omega
  have hbegin_calls : (at_http_to_fs_begin env path).calls
      = [Call.calloc_fs_handle true, Call.at_fatfs_mount true, Call.esp_vfs_fat_info true,
        Call.calloc_path true, Call.remove, Call.fopen true] := by
    simp [at_http_to_fs_begin, h7, h8, h9, h10, h11]
  obtain ⟨r, hr, -, hurl, -, -⟩ := recv_url_loop_spec env.url_len env.wakeups []
    (List.replicate (env.url_len + 1).toNat (Char.ofNat 0)) 0
    ([Call.calloc_session true] ++ (at_http_to_fs_begin env path).calls
      ++ [Call.calloc_url env.calloc_url_ok, Call.xSemaphoreCreateBinary env.sema_ok]
      ++ [Call.esp_at_port_enter_specific, Call.esp_at_response_result_prompt])
    (by simp) h4 (by simpa using h14)
  refine ⟨path, r.url, r.trace ++ [Call.esp_http_client_init true,
    Call.esp_http_client_set_method_get, Call.esp_http_client_open 0 ESP_OK], hpath, ?_, ?_⟩
  · intro c hc
    rcases List.mem_append.mp hc with hc | hc
    · rcases recv_url_loop_trace _ _ _ _ _ _ r hr c hc with hc | hc
      · rw [hbegin_calls] at hc
        simp only [List.mem_append, List.mem_cons, List.mem_singleton, List.not_mem_nil,
          or_false] at hc
        rcases hc with ((hc | hc) | hc | hc) | hc | hc <;> try (subst hc; rfl)
        rcases hc with hc | hc | hc | hc | hc | hc <;> subst hc <;> rfl
      · cases c <;> simp_all [Call.is_port_call, Call.is_body_transfer]
    · simp only [List.mem_cons, List.mem_singleton, List.not_mem_nil, or_false] at hc
      rcases hc with hc | hc | hc <;> subst hc <;> rfl
  have hbegin : at_http_to_fs_begin env path = ⟨some (env.fresh_handle path), [],
      [Call.calloc_fs_handle true, Call.at_fatfs_mount true, Call.esp_vfs_fat_info true,
        Call.calloc_path true, Call.remove, Call.fopen true]⟩ := by
    simp [at_http_to_fs_begin, GetEnv.fresh_handle, h7, h8, h9, h10, h11]
  have hnot : ¬ (env.url_len ≤ 0 ∨ env.url_len > AT_URL_LEN_MAX) := by
    simp only [AT_URL_LEN_MAX] at h5 ⊢; omega
  simp only [List.nil_append, hbegin, h12, h13, List.cons_append, List.append_assoc] at hr
  simp only [at_setup_cmd_httpget_to_fs, h1, hpath, at_str_is_null, h3, hnot, httpget_run, h6,
    hbegin, h12, h13, Bool.not_true, Bool.false_eq_true, if_false, if_true, Option.isNone_some,
    ne_eq, not_true_eq_false, hr, httpget_connect, h15, h16]
  simp [hr]
  split <;> simp_all

/-- Form of `httpget_connects` that keeps of the session only what the transfer depends on;
nothing of the body was moved before the transfer. -/
theorem httpget_reaches_transfer (env : GetEnv) (sp0 : Option at_httpget_to_fs_t)
    (h : env.connects) :
    ∃ path tr s00, s00.total_size = 0 ∧ s00.is_chunked = true ∧
      s00.fs_handle = some (env.fresh_handle path) ∧
      (∀ c ∈ tr, c.is_body_transfer = false) ∧
      at_setup_cmd_httpget_to_fs 2 env sp0
        = (httpget_transfer env ⟨ESP_OK, dispatch s00 env.open_events, [], tr⟩).map
            fun g => httpget_cmd_exit g.ret (some g.s) g.file g.trace := by
  obtain ⟨path, url, tr, -, htr, hrun⟩ := httpget_connects env sp0 h
  exact ⟨path, tr, _, rfl, rfl, rfl, htr, hrun⟩

theorem expected_size_eq (env : GetEnv) (s00 : at_httpget_to_fs_t) (h0 : s00.total_size = 0)
    (hc : s00.is_chunked = true) :
    (dispatch (dispatch s00 env.open_events) env.header_events).total_size
      = env.expected_size := by
  rw [← dispatch_append]
  exact (dispatch_congr _ _ _ hc h0).2

/-- Lines 315-362 on an environment whose status code passes, whose capacity guard passes, whose
buffer is allocated and whose reads deliver data up to a read that returns zero or a negative
value. -/
theorem httpget_transfer_streams (env : GetEnv) (s : at_httpget_to_fs_t) (file : List Char)
    (tr : List Call) (h : at_write_fs_handle_t) (pre : List DlStep) (last : DlStep)
    (post : List DlStep)
    (hfs : s.fs_handle = some h) (hfp : h.fp = true) (hw : h.wrote_size < 4294967296)
    (hstatus : env.status_code < HttpStatus_BadRequest)
    (hguard : ¬ h.available_size < toU32 (dispatch s env.header_events).total_size)
    (hmalloc : env.malloc_ok = true)
    (hsteps : env.steps = pre ++ last :: post) (hpre : ∀ st ∈ pre, st.delivers)
    (hlast : last.data_len ≤ 0) :
    ∃ o, httpget_transfer env ⟨ESP_OK, s, file, tr⟩ = some o ∧
      o.s.fs_handle
        = some { h with wrote_size := (h.wrote_size + delivered pre) % 4294967296 } ∧
      o.s.is_chunked
        = (dispatch s (env.header_events ++ step_events (pre ++ [last]))).is_chunked ∧
      o.s.total_size
        = (dispatch s (env.header_events ++ step_events (pre ++ [last]))).total_size ∧
      o.ret = (if o.s.is_chunked then ESP_OK
        else if toU32 o.s.total_size ≠ (h.wrote_size + delivered pre) % 4294967296
        then ESP_FAIL else ESP_OK) ∧
      ((∀ st ∈ pre, st.data.length = st.data_len.toNat) → h.wrote_size = file.length →
        file.length + delivered pre < 4294967296 → o.file = file ++ step_data pre) := by
  have hd : (dispatch s env.header_events).fs_handle = some h := by rw [dispatch_fs_handle, hfs]
  obtain ⟨o, ho, hret, hofs, hch, htot, hfile⟩ := download_loop_delivers pre last post hpre hlast
    (dispatch s env.header_events) file
    (tr ++ [Call.esp_http_client_fetch_headers env.fetch_ret,
      Call.esp_http_client_get_status_code env.status_code] ++ [Call.malloc_data true])
    h hd hfp hw
  rw [← dispatch_append] at hch htot
  simp only [List.append_assoc, List.cons_append, List.nil_append] at ho
  have hns : ¬ env.status_code ≥ HttpStatus_BadRequest := by omega
  by_cases hc : o.s.is_chunked = true
  · refine ⟨{ o with trace := o.trace ++ [Call.free_data] }, ?_, hofs, hch, htot, ?_, hfile⟩
    · simp [httpget_transfer, hns, hd, hguard, hmalloc, hsteps, ho, httpget_verdict, hofs, hc]
    · simp [hc, hret]
  · by_cases hne : toU32 o.s.total_size ≠ (h.wrote_size + delivered pre) % 4294967296
    · refine ⟨{ o with trace := o.trace ++ [Call.free_data], ret := ESP_FAIL }, ?_, hofs, hch,
        htot, ?_, hfile⟩
      · simp [httpget_transfer, hns, hd, hguard, hmalloc, hsteps, ho, httpget_verdict, hofs, hc,
          hne]
      · simp [hc, hne]
    · refine ⟨{ o with trace := o.trace ++ [Call.free_data] }, ?_, hofs, hch, htot, ?_, hfile⟩
      · simp [httpget_transfer, hns, hd, hguard, hmalloc, hsteps, ho, httpget_verdict, hofs, hc,
          hne]
      · simp [hc, hne, hret]

theorem result_of_transfer (o : GetState) :
    (httpget_cmd_exit o.ret (some o.s) o.file o.trace).code
        = (if o.ret ≠ ESP_OK then ResultCode.ESP_AT_RESULT_CODE_ERROR
           else ResultCode.ESP_AT_RESULT_CODE_OK) ∧
    (httpget_cmd_exit o.ret (some o.s) o.file o.trace).wrote_size
        = o.s.fs_handle.map (fun h => h.wrote_size) ∧
    (httpget_cmd_exit o.ret (some o.s) o.file o.trace).file = o.file := by
  simp [httpget_cmd_exit, GetResult.wrote_size]

/-! ## Claims on the download -/

/-- C1. Non-chunked download verdict: on an environment on which the handler reaches the
download loop, when a `Content-Length` header was observed and every such header carries the
value `N`, `N` fits the available size, and the body reads are positive reads whose writes
succeed, followed by a read returning 0, then: if the reads delivered exactly `N` bytes the
handler returns `ESP_AT_RESULT_CODE_OK` and `wrote_size` is `N`; if they delivered fewer than
`N` bytes the handler returns `ESP_AT_RESULT_CODE_ERROR`. -/
theorem content_length_verdict (env : GetEnv) (sp0 : Option at_httpget_to_fs_t) (N : Nat)
    (pre : List DlStep) (last : DlStep) (post : List DlStep)
    (hconn : env.connects) (hmalloc : env.malloc_ok = true)
    (hstatus : env.status_code < HttpStatus_BadRequest)
    (hcl : ∃ v, content_length v ∈ env.open_events ++ env.header_events)
    (hN : ∀ v, content_length v ∈
      env.open_events ++ env.header_events ++ step_events (pre ++ [last]) → atoi v = N)
    (hfit : N ≤ env.fs_free_size % 4294967296)
    (hsteps : env.steps = pre ++ last :: post) (hpre : ∀ st ∈ pre, st.delivers)
    (hlast : last.data_len = 0) :
    ∃ r, at_setup_cmd_httpget_to_fs 2 env sp0 = some r ∧
      (delivered pre = N →
        r.code = ResultCode.ESP_AT_RESULT_CODE_OK ∧ r.wrote_size = some N) ∧
      (delivered pre < N → r.code = ResultCode.ESP_AT_RESULT_CODE_ERROR) := by
  obtain ⟨path, tr, s00, ht0, hc0, hf0, -, hrun⟩ := httpget_reaches_transfer env sp0 hconn
  have hNlt : N < 4294967296 := by
    obtain ⟨v, hv⟩ := hcl
    have h1 := hN v (List.mem_append_left _ hv)
    have h2 := atoi_le v
    omega
  have hn1 := dispatch_content_length N (env.open_events ++ env.header_events) s00
    (fun v hv => hN v (List.mem_append_left _ hv)) (Or.inr hcl)
  have hn2 := dispatch_content_length N
    (env.open_events ++ env.header_events ++ step_events (pre ++ [last])) s00 hN
    (Or.inr (by obtain ⟨v, hv⟩ := hcl; exact ⟨v, List.mem_append_left _ hv⟩))
  rw [dispatch_append] at hn1
  rw [List.append_assoc, dispatch_append] at hn2
  obtain ⟨o, ho, hfs, hch, htot, hret, -⟩ := httpget_transfer_streams env
    (dispatch s00 env.open_events) [] tr
    (env.fresh_handle path) pre last post (by rw [dispatch_fs_handle, hf0]) rfl
    (by simp [GetEnv.fresh_handle]) hstatus
    (by rw [hn1.2, toU32_natCast N hNlt]; simp [GetEnv.fresh_handle]; omega) hmalloc hsteps hpre
    (le_of_eq hlast)
  rw [hn2.1] at hch
  rw [hn2.2] at htot
  rw [ho] at hrun
  rw [hch, htot, toU32_natCast N hNlt] at hret
  have hw0 : (env.fresh_handle path).wrote_size = 0 := rfl
  rw [hw0, Nat.zero_add] at hret hfs
  refine ⟨_, hrun, ?_, ?_⟩
  · intro heq
    have hmod : delivered pre % 4294967296 = N := by rw [heq, Nat.mod_eq_of_lt hNlt]
    constructor
    · rw [(result_of_transfer o).1, hret]; simp [hmod]
    · rw [(result_of_transfer o).2.1, hfs]; simp [hmod]
  · intro hlt
    have hmod : N ≠ delivered pre % 4294967296 := by
      rw [Nat.mod_eq_of_lt (by omega)]; omega
    rw [(result_of_transfer o).1, hret]
    simp [hmod, ESP_FAIL, ESP_OK]

/-- C1 at `env_ten` (10 of 10 bytes: success, `wrote_size` 10) and at `env_short` (6 of 10
bytes: error). -/
theorem content_length_verdict_witness :
    (env_ten.connects ∧ ∃ r, at_setup_cmd_httpget_to_fs 2 env_ten none = some r ∧
      r.code = ResultCode.ESP_AT_RESULT_CODE_OK ∧ r.wrote_size = some 10) ∧
    (env_short.connects ∧ ∃ r, at_setup_cmd_httpget_to_fs 2 env_short none = some r ∧
      r.code = ResultCode.ESP_AT_RESULT_CODE_ERROR) := by
  refine ⟨⟨by decide, ?_⟩, ⟨by decide, ?_⟩⟩
  · obtain ⟨r, hr, h1, -⟩ := content_length_verdict env_ten none 10
      [read_of "abc", read_of "def", read_of "ghi", read_of "j"] read_closed []
      (by decide) rfl (by decide) ⟨"10", by decide⟩
      (by intro v hv; simp [content_length, step_events, env_ten, read_of, read_closed] at hv
          subst hv; decide)
      (by decide) rfl (by decide) rfl
    exact ⟨r, hr, h1 (by decide)⟩
  · obtain ⟨r, hr, -, h2⟩ := content_length_verdict env_short none 10
      [read_of "abc", read_of "def"] read_closed []
      (by decide) rfl (by decide) ⟨"10", by decide⟩
      (by intro v hv
          simp [content_length, step_events, env_short, env_ten, read_of, read_closed] at hv
          subst hv; decide)
      (by decide) rfl (by decide) rfl
    exact ⟨r, hr, h2 (by decide)⟩

/-- C2. Chunked download: on an environment on which the handler reaches the download loop
(parameters accepted, resources allocated, URL received, connection opened, status below 400,
buffer allocated), when no `Content-Length` header is observed and the body reads are any finite
sequence of positive reads whose writes succeed, followed by a read returning 0, the handler
returns `ESP_AT_RESULT_CODE_OK` and `wrote_size` is the sum of the read lengths (the sum being
within the range of the `uint32_t` counter). -/
theorem chunked_download_succeeds (env : GetEnv) (sp0 : Option at_httpget_to_fs_t)
    (pre : List DlStep) (last : DlStep) (post : List DlStep)
    (hconn : env.connects) (hmalloc : env.malloc_ok = true)
    (hstatus : env.status_code < HttpStatus_BadRequest)
    (hnocl : ∀ v, content_length v ∉
      env.open_events ++ env.header_events ++ step_events (pre ++ [last]))
    (hsteps : env.steps = pre ++ last :: post) (hpre : ∀ st ∈ pre, st.delivers)
    (hlast : last.data_len = 0) (hrange : delivered pre < 4294967296) :
    ∃ r, at_setup_cmd_httpget_to_fs 2 env sp0 = some r ∧
      r.code = ResultCode.ESP_AT_RESULT_CODE_OK ∧ r.wrote_size = some (delivered pre) := by
  obtain ⟨path, tr, s00, ht0, hc0, hf0, -, hrun⟩ := httpget_reaches_transfer env sp0 hconn
  have hn1 := dispatch_no_content_length (env.open_events ++ env.header_events) s00
    (fun v hv => hnocl v (List.mem_append_left _ hv))
  have hn2 := dispatch_no_content_length
    (env.open_events ++ env.header_events ++ step_events (pre ++ [last])) s00 hnocl
  rw [dispatch_append] at hn1
  rw [List.append_assoc, dispatch_append] at hn2
  obtain ⟨o, ho, hfs, hch, -, hret, -⟩ := httpget_transfer_streams env
    (dispatch s00 env.open_events) [] tr
    (env.fresh_handle path) pre last post (by rw [dispatch_fs_handle, hf0]) rfl
    (by simp [GetEnv.fresh_handle]) hstatus (by rw [hn1.2, ht0]; simp [toU32]) hmalloc hsteps
    hpre (le_of_eq hlast)
  rw [hn2.1, hc0] at hch
  rw [ho] at hrun
  refine ⟨_, hrun, ?_, ?_⟩
  · rw [(result_of_transfer o).1, hret, hch]; simp
  · rw [(result_of_transfer o).2.1, hfs]
    simp [GetEnv.fresh_handle, Nat.mod_eq_of_lt hrange]

/-- C2 at `env_chunked`: 10 bytes in four reads, no `Content-Length`. -/
theorem chunked_download_succeeds_witness :
    env_chunked.connects ∧ ∃ r, at_setup_cmd_httpget_to_fs 2 env_chunked none = some r ∧
      r.code = ResultCode.ESP_AT_RESULT_CODE_OK ∧ r.wrote_size = some 10 :=
  ⟨by decide, chunked_download_succeeds env_chunked none
      [read_of "abc", read_of "def", read_of "ghi", read_of "j"] read_closed []
      (by decide) rfl (by decide)
      (by intro v hv
          simp [content_length, step_events, env_chunked, env_ten, read_of, read_closed] at hv)
      rfl (by decide) rfl (by decide)⟩

/-- C3. Download capacity guard: on an environment on which the handler connects, whatever
expected size the headers left and whatever the available size, when the available size is
below the expected size in the unsigned comparison of line 322, the handler returns
`ESP_AT_RESULT_CODE_ERROR`, `wrote_size` is still 0, and the trace holds no body read, no
`fseek` and no `fwrite`. -/
theorem capacity_guard_rejects (env : GetEnv) (sp0 : Option at_httpget_to_fs_t)
    (hconn : env.connects)
    (hover : env.fs_free_size % 4294967296 < toU32 env.expected_size) :
    ∃ r, at_setup_cmd_httpget_to_fs 2 env sp0 = some r ∧
      r.code = ResultCode.ESP_AT_RESULT_CODE_ERROR ∧ r.wrote_size = some 0 ∧
      ∀ c ∈ r.trace, c.is_body_transfer = false := by
  obtain ⟨path, tr, s00, ht0, hc0, hf0, htr, hrun⟩ := httpget_reaches_transfer env sp0 hconn
  have hd : (dispatch (dispatch s00 env.open_events) env.header_events).fs_handle
      = some (env.fresh_handle path) := by rw [dispatch_fs_handle, dispatch_fs_handle, hf0]
  have hg : (env.fresh_handle path).available_size
      < toU32 (dispatch (dispatch s00 env.open_events) env.header_events).total_size := by
    rw [expected_size_eq env s00 ht0 hc0]; exact hover
  have ht : httpget_transfer env ⟨ESP_OK, dispatch s00 env.open_events, [], tr⟩
      = some ⟨ESP_FAIL, dispatch (dispatch s00 env.open_events) env.header_events, [],
          tr ++ [Call.esp_http_client_fetch_headers env.fetch_ret,
            Call.esp_http_client_get_status_code env.status_code]⟩ := by
    by_cases hs : env.status_code ≥ HttpStatus_BadRequest
    · simp [httpget_transfer, hs]
    · simp [httpget_transfer, hs, hd, hg]
  rw [ht] at hrun
  refine ⟨_, hrun, ?_, ?_, ?_⟩
  · simp [httpget_cmd_exit, ESP_FAIL, ESP_OK]
  · simp [httpget_cmd_exit, GetResult.wrote_size, hd, GetEnv.fresh_handle]
  · intro c hc
    simp only [httpget_cmd_exit, List.mem_append, List.mem_cons, List.mem_singleton,
      List.not_mem_nil, or_false] at hc
    rcases hc with (hc | hc | hc) | hc
    · exact htr c hc
    · subst hc; rfl
    · subst hc; rfl
    · exact clean_no_body_transfer _ c hc

/-- C3 at `env_full`: `Content-Length: 10` against 4 free bytes. -/
theorem capacity_guard_rejects_witness :
    (env_full.connects ∧ env_full.fs_free_size % 4294967296 < toU32 env_full.expected_size) ∧
    ∃ r, at_setup_cmd_httpget_to_fs 2 env_full none = some r ∧
      r.code = ResultCode.ESP_AT_RESULT_CODE_ERROR ∧ r.wrote_size = some 0 ∧
      ∀ c ∈ r.trace, c.is_body_transfer = false :=
  ⟨⟨by decide, by decide⟩, capacity_guard_rejects env_full none (by decide) (by decide)⟩

/-- C4 (the code departs from it). At `env_aborted`, a chunked download whose second body read
returns -1, the handler issues that read and still returns `ESP_AT_RESULT_CODE_OK`, with `ret`
equal to `ESP_OK` and the 3 bytes of the first read in the file. -/
theorem aborted_read_reports_ok :
    (at_setup_cmd_httpget_to_fs 2 env_aborted none).map
        (fun r => (r.code, r.ret, r.file, decide (Call.esp_http_client_read (-1) ∈ r.trace)))
      = some (ResultCode.ESP_AT_RESULT_CODE_OK, ESP_OK, "abc".toList, true) := by
  decide

/-- C5. Download preserves content and order: on an environment on which the handler reaches
the download loop and the capacity guard passes, starting from the fresh handle (`wrote_size`
0, empty file), when the body reads return non-empty chunks whose writes succeed, followed by a
read of 0, the file holds exactly the concatenation of the chunks in order and `wrote_size` is
its length (the length being within the range of the `uint32_t` counter). -/
theorem download_preserves_content (env : GetEnv) (sp0 : Option at_httpget_to_fs_t)
    (pre : List DlStep) (last : DlStep) (post : List DlStep)
    (hconn : env.connects) (hmalloc : env.malloc_ok = true)
    (hstatus : env.status_code < HttpStatus_BadRequest)
    (hguard : ¬ env.fs_free_size % 4294967296 < toU32 env.expected_size)
    (hsteps : env.steps = pre ++ last :: post) (hpre : ∀ st ∈ pre, st.delivers)
    (hdata : ∀ st ∈ pre, st.data.length = st.data_len.toNat)
    (hlast : last.data_len = 0) (hrange : (step_data pre).length < 4294967296) :
    ∃ r, at_setup_cmd_httpget_to_fs 2 env sp0 = some r ∧
      r.file = step_data pre ∧ r.wrote_size = some (step_data pre).length := by
  obtain ⟨path, tr, s00, ht0, hc0, hf0, -, hrun⟩ := httpget_reaches_transfer env sp0 hconn
  have hlen := delivered_eq_length pre hdata
  obtain ⟨o, ho, hfs, -, -, -, hfile⟩ := httpget_transfer_streams env
    (dispatch s00 env.open_events) [] tr
    (env.fresh_handle path) pre last post (by rw [dispatch_fs_handle, hf0]) rfl
    (by simp [GetEnv.fresh_handle]) hstatus
    (by rw [expected_size_eq env s00 ht0 hc0]; exact hguard) hmalloc hsteps hpre
    (le_of_eq hlast)
  rw [ho] at hrun
  refine ⟨_, hrun, ?_, ?_⟩
  · rw [(result_of_transfer o).2.2, hfile hdata rfl (by simpa [hlen] using hrange)]
    simp
  · rw [(result_of_transfer o).2.1, hfs]
    simp [GetEnv.fresh_handle, hlen, Nat.mod_eq_of_lt hrange]

/-- C5 at `env_ten`: reads of 3, 3, 3, 1 and 0 bytes under `Content-Length: 10` leave the ten
bytes in order, `wrote_size` 10, and the handler returns `ESP_AT_RESULT_CODE_OK`. -/
theorem download_preserves_content_witness :
    env_ten.connects ∧ ∃ r, at_setup_cmd_httpget_to_fs 2 env_ten none = some r ∧
      r.file = "abcdefghij".toList ∧ r.wrote_size = some 10 ∧
      r.code = ResultCode.ESP_AT_RESULT_CODE_OK := by
  refine ⟨by decide, ?_⟩
  obtain ⟨r, hr, h1, h2⟩ := download_preserves_content env_ten none
    [read_of "abc", read_of "def", read_of "ghi", read_of "j"] read_closed []
    (by decide) rfl (by decide) (by decide) rfl (by decide) (by decide) rfl (by decide)
  have hcode : (at_setup_cmd_httpget_to_fs 2 env_ten none).map (fun r => r.code)
      = some ResultCode.ESP_AT_RESULT_CODE_OK := by decide
  rw [hr] at hcode
  exact ⟨r, hr, h1, h2, by simpa using hcode⟩

/-! ## Claim on the URL ingestion -/

/-- C6. URL ingestion consumes exactly `L` bytes: for every declared length `L > 0` (so for
every `L` in 1..8192) and every fragmentation of the input into wake-ups that deliver at least
`L` bytes in total, the ingestion loop, entered as both setup handlers enter it (empty port
buffer, zeroed buffer of `L + 1` bytes, `had_recv_len = 0`), terminates with
`had_recv_len = L`; the URL buffer holds the first `L` bytes of the stream in order, followed
by the terminating zero; every byte after the `L`-th is still unread, in the port buffer or
undelivered; and every port read of the loop is requested at offset `had_recv_len` with
exactly `L - had_recv_len` bytes, never reaching past `L`. -/
theorem url_ingestion_consumes_exactly (L : Int) (wakeups : List (List Char))
    (tr : List Call) (hL : 0 < L) (hdeliv : L ≤ wakeups.flatten.length) :
    ∃ r, recv_url_loop L wakeups [] (List.replicate (L + 1).toNat (Char.ofNat 0)) 0 tr = some r ∧
      r.had_recv_len = L ∧
      r.url = wakeups.flatten.take L.toNat ++ [Char.ofNat 0] ∧
      r.port ++ r.wakeups.flatten = wakeups.flatten.drop L.toNat ∧
      (∀ off len ret, Call.esp_at_port_read_data off len ret ∈ r.trace →
        Call.esp_at_port_read_data off len ret ∈ tr ∨
          (len = L - off ∧ 0 ≤ off ∧ off < L ∧ off + ret ≤ L)) := by
  obtain ⟨r, hr, h1, h2, h3, h4⟩ := recv_url_loop_spec L wakeups []
    (List.replicate (L + 1).toNat (Char.ofNat 0)) 0 tr (by simp) hL (by simpa using hdeliv)
  refine ⟨r, by simpa using hr, h1, ?_, by simpa using h3, h4⟩
  rw [h2]
  have : (L + 1).toNat - L.toNat = 1 := by omega
  simp [List.drop_replicate, this]

/-- C6 at `L = 8` with the stream `http://xAT` delivered as 1 byte, nothing, 7 bytes and 2
bytes: the loop stops after the third wake-up with the 8 URL bytes; `AT` is left unread. -/
theorem url_ingestion_consumes_exactly_witness :
    ((0 : Int) < 8 ∧ (8 : Int) ≤
      (["h".toList, [], "ttp://x".toList, "AT".toList].flatten.length : Int)) ∧
    ∃ r, recv_url_loop 8 ["h".toList, [], "ttp://x".toList, "AT".toList] []
        (List.replicate 9 (Char.ofNat 0)) 0 [] = some r ∧
      r.had_recv_len = 8 ∧ r.url = "http://x".toList ++ [Char.ofNat 0] ∧
      r.port ++ r.wakeups.flatten = "AT".toList := by
  refine ⟨by decide, ?_⟩
  obtain ⟨r, hr, h1, h2, h3, -⟩ := url_ingestion_consumes_exactly 8
    ["h".toList, [], "ttp://x".toList, "AT".toList] [] (by decide) (by decide)
  exact ⟨r, hr, h1, h2, h3⟩

/-! ## Claim on the parameter checks -/

/-- C7. Parameter validation of both setup handlers: when the path fails to parse or is null,
the URL length fails to parse, is `<= 0` or `> 8192`, or the parameter count is not 2, each
handler returns `ESP_AT_RESULT_CODE_ERROR`, leaves its session slot as it was and makes no
call at all (no allocation, no mount); otherwise each handler passes the checks and goes on
with the part that starts by allocating the session (lines 260 and 546). -/
theorem parameter_validation (para_num : Nat) (genv : GetEnv) (penv : PostEnv)
    (sg : Option at_httpget_to_fs_t) (sp : Option at_fs_to_http_server_t) :
    ((genv.para_str_ok = false ∨ genv.dst_path = none ∨ genv.para_digit_ok = false ∨
        genv.url_len ≤ 0 ∨ genv.url_len > 8192 ∨ para_num ≠ 2) →
      ∃ r, at_setup_cmd_httpget_to_fs para_num genv sg = some r ∧
        r.code = ResultCode.ESP_AT_RESULT_CODE_ERROR ∧ r.sp_http_to_fs = sg ∧ r.trace = [] ∧
        r.file = genv.old_file) ∧
    ((penv.para_str_ok = false ∨ penv.dst_path = none ∨ penv.para_digit_ok = false ∨
        penv.url_len ≤ 0 ∨ penv.url_len > 8192 ∨ para_num ≠ 2) →
      ∃ r, at_setup_cmd_fs_to_http_server para_num penv sp = some r ∧
        r.code = ResultCode.ESP_AT_RESULT_CODE_ERROR ∧ r.sp_fs_to_http = sp ∧ r.trace = []) ∧
    (∀ path, genv.para_str_ok = true → genv.dst_path = some path → genv.para_digit_ok = true →
      1 ≤ genv.url_len → genv.url_len ≤ 8192 → para_num = 2 →
      at_setup_cmd_httpget_to_fs para_num genv sg = httpget_run genv path) ∧
    (∀ path, penv.para_str_ok = true → penv.dst_path = some path → penv.para_digit_ok = true →
      1 ≤ penv.url_len → penv.url_len ≤ 8192 → para_num = 2 →
      at_setup_cmd_fs_to_http_server para_num penv sp = post_run penv path) := by
  refine ⟨?_, ?_, ?_, ?_⟩
  · intro h
    refine ⟨httpget_reject genv sg, ?_, rfl, rfl, rfl, rfl⟩
    have hmax : AT_URL_LEN_MAX = 8192 := by norm_num [AT_URL_LEN_MAX]
    unfold at_setup_cmd_httpget_to_fs
    rw [hmax]
    split_ifs with h1 h2 h3 h4 h5
    all_goals first
      | rfl
      | (exfalso
         simp only [Bool.not_eq_true', Bool.not_eq_false, at_str_is_null,
           Option.isNone_iff_eq_none, Bool.not_eq_true] at h1 h2 h3
         rcases h with h | h | h | h | h | h
         · rw [h] at h1; cases h1
         · exact h2 h
         · rw [h] at h3; cases h3
         · exact h4 (Or.inl h)
         · exact h4 (Or.inr h)
         · exact h5 (fun e => h e.symm))
  · intro h
    refine ⟨post_reject sp, ?_, rfl, rfl, rfl⟩
    have hmax : AT_URL_LEN_MAX = 8192 := by norm_num [AT_URL_LEN_MAX]
    unfold at_setup_cmd_fs_to_http_server
    rw [hmax]
    split_ifs with h1 h2 h3 h4 h5
    all_goals first
      | rfl
      | (exfalso
         simp only [Bool.not_eq_true', Bool.not_eq_false, at_str_is_null,
           Option.isNone_iff_eq_none, Bool.not_eq_true] at h1 h2 h3
         rcases h with h | h | h | h | h | h
         · rw [h] at h1; cases h1
         · exact h2 h
         · rw [h] at h3; cases h3
         · exact h4 (Or.inl h)
         · exact h4 (Or.inr h)
         · exact h5 (fun e => h e.symm))
  · intro path h1 h2 h3 h4 h5 h6
    have hn : ¬ (genv.url_len ≤ 0 ∨ genv.url_len > AT_URL_LEN_MAX) := by
      simp only [AT_URL_LEN_MAX]; omega
    simp [at_setup_cmd_httpget_to_fs, h1, h2, h3, hn, h6, at_str_is_null]
  · intro path h1 h2 h3 h4 h5 h6
    have hn : ¬ (penv.url_len ≤ 0 ∨ penv.url_len > AT_URL_LEN_MAX) := by
      simp only [AT_URL_LEN_MAX]; omega
    simp [at_setup_cmd_fs_to_http_server, h1, h2, h3, hn, h6, at_str_is_null]

/-- C7 at a URL length of 8193 (rejected by both handlers, nothing touched) and at the
accepted parameters of `env_ten` and `env_upload`. -/
theorem parameter_validation_witness :
    (∃ r, at_setup_cmd_httpget_to_fs 2 env_url_too_long none = some r ∧
      r.code = ResultCode.ESP_AT_RESULT_CODE_ERROR ∧ r.sp_http_to_fs = none ∧ r.trace = [] ∧
      r.file = env_url_too_long.old_file) ∧
    (∃ r, at_setup_cmd_fs_to_http_server 3 env_upload none = some r ∧
      r.code = ResultCode.ESP_AT_RESULT_CODE_ERROR ∧ r.sp_fs_to_http = none ∧ r.trace = []) ∧
    at_setup_cmd_httpget_to_fs 2 env_ten none = httpget_run env_ten "a.bin".toList ∧
    at_setup_cmd_fs_to_http_server 2 env_upload none = post_run env_upload "a.bin".toList :=
  ⟨(parameter_validation 2 env_url_too_long env_upload none none).1
      (Or.inr (Or.inr (Or.inr (Or.inr (Or.inl (by decide)))))),
   (parameter_validation 3 env_ten env_upload none none).2.1
      (Or.inr (Or.inr (Or.inr (Or.inr (Or.inr (by decide)))))),
   (parameter_validation 2 env_ten env_upload none none).2.2.1 "a.bin".toList rfl rfl rfl
      (by decide) (by decide) rfl,
   (parameter_validation 2 env_ten env_upload none none).2.2.2 "a.bin".toList rfl rfl rfl
      (by decide) (by decide) rfl⟩

/-! ## Upload handler -/

theorem http_written_append (a b : List Call) :
    http_written (a ++ b) = http_written a + http_written b := by
  simp [http_written, List.map_append, List.sum_append]

theorem http_requested_append (a b : List Call) :
    http_requested (a ++ b) = http_requested a + http_requested b := by
  simp [http_requested, List.map_append, List.sum_append]

theorem http_written_quiet (tr : List Call) (h : ∀ c ∈ tr, c.is_http_send = false) :
    http_written tr = 0 ∧ http_requested tr = 0 := by
  induction tr with
  | nil => exact ⟨rfl, rfl⟩
  | cons c cs ih =>
    obtain ⟨h1, h2⟩ := ih (fun x hx => h x (List.mem_cons_of_mem _ hx))
    have hc := h c (by simp)
    have hz : c.http_write_ret = 0 ∧ c.http_write_len = 0 := by
      cases c <;> first | exact ⟨rfl, rfl⟩ | (simp [Call.is_http_send] at hc)
    simp only [http_written, http_requested, List.map_cons, List.sum_cons] at h1 h2 ⊢
    rw [h1, h2, hz.1, hz.2]
    exact ⟨rfl, rfl⟩

theorem quiet_not_open (l : List Call) (h : ∀ c ∈ l, c.is_http_send = false) :
    ∀ c ∈ l, ∀ len ret, c ≠ Call.esp_http_client_open len ret := by
  intro c hc len ret he
  have := h c hc
  rw [he] at this
  cases this

/-- What `at_fs_read` does on a handle that is present: its calls are `fseek` and `fread`, and
either it returns a value `<= 0` or it returns the positive number of bytes read, at most
`len`, and has advanced `had_read_size` by it. -/
theorem at_fs_read_cases (h : at_read_fs_handle_t) (file : List Char) (len : Nat)
    (seek_ok : Bool) (cap : Nat) (hlen : len < 2147483648) :
    (∀ c ∈ (at_fs_read (some h) file true len seek_ok cap).calls, c.is_http_send = false) ∧
    ((at_fs_read (some h) file true len seek_ok cap).ret ≤ 0 ∨
      (0 < (at_fs_read (some h) file true len seek_ok cap).ret ∧
       (at_fs_read (some h) file true len seek_ok cap).ret ≤ len ∧
       (at_fs_read (some h) file true len seek_ok cap).fs_handle
        = some { h with had_read_size :=
            (h.had_read_size + (at_fs_read (some h) file true len seek_ok cap).ret.toNat)
              % 4294967296 })) := by
  unfold at_fs_read
  by_cases hfp : h.fp = true
  · by_cases hseek : seek_ok = true
    · have hb : ((file.drop h.had_read_size).take (min len cap)).length ≤ len := by
        rw [List.length_take]; omega
      simp only [hfp, hseek, Bool.not_true, Bool.false_eq_true, or_self, if_false]
      generalize (file.drop h.had_read_size).take (min len cap) = bytes at hb ⊢
      have hret : toI32 (bytes.length : Int) = (bytes.length : Int) := by
        unfold toI32; simp only; omega
      rw [hret]
      refine ⟨?_, ?_⟩
      · intro c hc
        simp only [List.mem_cons, List.mem_singleton, List.not_mem_nil, or_false] at hc
        rcases hc with hc | hc <;> subst hc <;> rfl
      · by_cases h0 : bytes.length = 0
        · left; omega
        · right
          refine ⟨by omega, by exact_mod_cast hb, ?_⟩
          rw [Int.toNat_ofNat]
    · simp [hfp, hseek, ESP_FAIL, Call.is_http_send]
  · simp [hfp, ESP_ERR_INVALID_ARG]

/-- The upload loop, from a session whose counters are consistent (`post_size` at most
`had_read_size`, at most `total_size`, the size fitting an `int`), with HTTP writes that never
return more than they were asked to write: the loop only appends to the trace, it does not open
a connection, it leaves `ret` at `ESP_OK` or `ESP_FAIL`, and when it leaves `ESP_OK` then
`post_size` equals `total_size` and both the returned and the requested byte counts of its
HTTP writes add up to what was still to be posted. -/
theorem upload_loop_accounting (file : List Char) (steps : List UlStep)
    (s : at_fs_to_http_server_t) (tr : List Call) (h : at_read_fs_handle_t) (g : PostState)
    (hs : s.fs_handle = some h)
    (hwf : ∀ st ∈ steps, ∀ len, st.write len ≤ len)
    (htot : h.total_size < 2147483648) (hhad : h.had_read_size ≤ h.total_size)
    (hpost0 : 0 ≤ s.post_size) (hpost : s.post_size ≤ h.had_read_size)
    (hg : upload_loop file steps s tr = some g) :
    ∃ new, g.trace = tr ++ new ∧
      (∀ c ∈ new, ∀ len ret, c ≠ Call.esp_http_client_open len ret) ∧
      (g.ret = ESP_OK ∨ g.ret = ESP_FAIL) ∧
      (g.ret = ESP_OK → g.s.post_size = h.total_size ∧
        http_written new = h.total_size - s.post_size ∧
        http_requested new = h.total_size - h.had_read_size) := by
  induction steps generalizing s tr h with
  | nil => simp [upload_loop] at hg
  | cons st rest ih =>
    rw [upload_loop] at hg
    simp only [hs] at hg
    have hun : toI32 ((h.total_size : Int) - (h.had_read_size : Int))
        = (h.total_size : Int) - (h.had_read_size : Int) := by
      unfold toI32; simp only; omega
    rw [hun] at hg
    generalize hlen : toU32 (if (AT_HEAP_BUFFER_SIZE : Int) < (h.total_size : Int) - h.had_read_size
      then (AT_HEAP_BUFFER_SIZE : Int) else (h.total_size : Int) - h.had_read_size) = len at hg
    have hlen1 : len ≤ h.total_size - h.had_read_size := by
      rw [← hlen]; unfold toU32 AT_HEAP_BUFFER_SIZE; split <;> omega
    obtain ⟨hcalls, hcase⟩ := at_fs_read_cases h file len st.seek_ok st.fread_cap (by omega)
    generalize at_fs_read (some h) file true len st.seek_ok st.fread_cap = r at hg hcalls hcase
    have hcalls_open : ∀ c ∈ r.calls, ∀ len ret, c ≠ Call.esp_http_client_open len ret := by
      intro c hc len ret he
      have := hcalls c hc
      rw [he] at this
      cases this
    rcases hcase with hneg | ⟨hpos, hle, hfs⟩
    · rw [if_pos hneg] at hg
      injection hg with hg
      subst hg
      exact ⟨r.calls, rfl, hcalls_open, Or.inr rfl, fun hc => by simp [ESP_FAIL, ESP_OK] at hc⟩
    · rw [if_neg (by omega)] at hg
      have hw := hwf st (by simp) r.ret
      by_cases hwpos : st.write r.ret > 0
      · rw [if_pos hwpos] at hg
        have hps : toI32 (s.post_size + st.write r.ret) = s.post_size + st.write r.ret := by
          unfold toI32; simp only; omega
        simp only [hps] at hg
        by_cases hdone : toU32 (s.post_size + st.write r.ret) = h.total_size
        · rw [if_pos hdone] at hg
          injection hg with hg
          subst hg
          have hpt : s.post_size + st.write r.ret = h.total_size := by
            unfold toU32 at hdone; omega
          refine ⟨r.calls ++ [Call.esp_http_client_write r.data r.ret (st.write r.ret)],
            by simp, ?_, Or.inl rfl, fun _ => ⟨hpt, ?_, ?_⟩⟩
          · intro c hc
            rcases List.mem_append.mp hc with hc | hc
            · exact hcalls_open c hc
            · simp only [List.mem_singleton] at hc; subst hc; intro len ret he; cases he
          · rw [http_written_append, (http_written_quiet r.calls hcalls).1]
            simp [http_written, Call.http_write_ret]; omega
          · rw [http_requested_append, (http_written_quiet r.calls hcalls).2]
            simp [http_requested, Call.http_write_len]; omega
        · rw [if_neg hdone] at hg
          obtain ⟨new, hnew, hopen, hret, hok⟩ := ih
            { s with fs_handle := r.fs_handle, post_size := s.post_size + st.write r.ret }
            (tr ++ r.calls ++ [Call.esp_http_client_write r.data r.ret (st.write r.ret)])
            { h with had_read_size := (h.had_read_size + r.ret.toNat) % 4294967296 }
            (by simp [hfs]) (fun x hx => hwf x (List.mem_cons_of_mem _ hx)) htot
            (by show (h.had_read_size + r.ret.toNat) % 4294967296 ≤ h.total_size; omega)
            (by show 0 ≤ s.post_size + st.write r.ret; omega)
            (by show s.post_size + st.write r.ret
                  ≤ (((h.had_read_size + r.ret.toNat) % 4294967296 : Nat) : Int); omega)
            hg
          refine ⟨r.calls ++ [Call.esp_http_client_write r.data r.ret (st.write r.ret)] ++ new,
            by rw [hnew]; simp, ?_, hret, fun hc => ?_⟩
          · intro c hc
            rcases List.mem_append.mp hc with hc | hc
            · rcases List.mem_append.mp hc with hc | hc
              · exact hcalls_open c hc
              · simp only [List.mem_singleton] at hc; subst hc; intro len ret he; cases he
            · exact hopen c hc
          · obtain ⟨h1, h2, h3⟩ := hok hc
            refine ⟨h1, ?_, ?_⟩
            · rw [http_written_append, http_written_append,
                (http_written_quiet r.calls hcalls).1, h2]
              simp [http_written, Call.http_write_ret]
              ring
            · rw [http_requested_append, http_requested_append,
                (http_written_quiet r.calls hcalls).2, h3]
              simp [http_requested, Call.http_write_len]
              have : ((h.had_read_size + r.ret.toNat) % 4294967296 : Nat)
                  = h.had_read_size + r.ret.toNat := Nat.mod_eq_of_lt (by omega)
              omega
      · rw [if_neg hwpos] at hg
        have hfail : g.ret = ESP_FAIL ∧ g.trace = tr ++ r.calls
            ++ [Call.esp_http_client_write r.data r.ret (st.write r.ret)] := by
          split at hg <;> (injection hg with hg; subst hg; exact ⟨rfl, rfl⟩)
        refine ⟨r.calls ++ [Call.esp_http_client_write r.data r.ret (st.write r.ret)],
          by rw [hfail.2]; simp, ?_, Or.inr hfail.1,
          fun hc => by rw [hfail.1] at hc; simp [ESP_FAIL, ESP_OK] at hc⟩
        intro c hc
        rcases List.mem_append.mp hc with hc | hc
        · exact hcalls_open c hc
        · simp only [List.mem_singleton] at hc; subst hc; intro len ret he; cases he

theorem post_clean_quiet (sp : Option at_fs_to_http_server_t) :
    ∀ c ∈ (at_fs_to_http_clean sp).2, c.is_http_send = false := by
  intro c hc
  cases sp with
  | none => simp [at_fs_to_http_clean] at hc
  | some s =>
    simp only [at_fs_to_http_clean, List.mem_append, List.mem_singleton] at hc
    rcases hc with (((hc | hc) | hc) | hc) | hc
    · split at hc <;> simp at hc; subst hc; rfl
    · split at hc <;> simp at hc; subst hc; rfl
    · split at hc <;> simp at hc; subst hc; rfl
    · split at hc
      · simp at hc
      · simp only [List.mem_append, List.mem_singleton] at hc
        rcases hc with ((hc | hc) | hc) | hc
        · split at hc <;> simp at hc; subst hc; rfl
        · split at hc <;> simp at hc; subst hc; rfl
        · split at hc <;> simp at hc; subst hc; rfl
        · subst hc; rfl
    · subst hc; rfl

/-- The exit of the upload handler appends only releases to the trace. -/
theorem post_cmd_exit_trace (ret : Int) (sp : Option at_fs_to_http_server_t)
    (d bs be : Bool) (tr : List Call) :
    ∃ tail, (post_cmd_exit ret sp d bs be tr).trace = tr ++ tail ∧
      ∀ c ∈ tail, c.is_http_send = false := by
  refine ⟨(if d then [Call.free_data] else []) ++ (if bs then [Call.free_body_start] else [])
      ++ (if be then [Call.free_body_end] else []) ++ (at_fs_to_http_clean sp).2, by
      simp [post_cmd_exit], ?_⟩
  intro c hc
  simp only [List.mem_append] at hc
  rcases hc with ((hc | hc) | hc) | hc
  · split at hc <;> simp at hc; subst hc; rfl
  · split at hc <;> simp at hc; subst hc; rfl
  · split at hc <;> simp at hc; subst hc; rfl
  · exact post_clean_quiet sp c hc

theorem post_cmd_exit_code (ret : Int) (sp : Option at_fs_to_http_server_t)
    (d bs be : Bool) (tr : List Call) :
    (post_cmd_exit ret sp d bs be tr).code = ResultCode.ESP_AT_RESULT_CODE_OK ↔ ret = ESP_OK := by
  unfold post_cmd_exit
  by_cases h : ret = ESP_OK <;> simp [h]

/-- The response part of the upload handler appends no open and no write to the trace. -/
theorem post_response_trace (env : PostEnv) (s : at_fs_to_http_server_t) (tr : List Call) :
    ∃ tail, (post_response env s tr).trace = tr ++ tail ∧
      ∀ c ∈ tail, c.is_http_send = false := by
  unfold post_response
  simp only
  split
  · obtain ⟨tail, h1, h2⟩ := post_cmd_exit_trace env.fetch_ret (some s) true true true
      (tr ++ [Call.esp_http_client_fetch_headers env.fetch_ret])
    refine ⟨[Call.esp_http_client_fetch_headers env.fetch_ret] ++ tail, by rw [h1]; simp, ?_⟩
    intro c hc
    rcases List.mem_append.mp hc with hc | hc
    · simp only [List.mem_singleton] at hc; subst hc; rfl
    · exact h2 c hc
  · split
    · obtain ⟨tail, h1, h2⟩ := post_cmd_exit_trace (-env.status_code) (some s) true true true
        (tr ++ [Call.esp_http_client_fetch_headers env.fetch_ret]
          ++ [Call.esp_http_client_get_status_code env.status_code])
      refine ⟨[Call.esp_http_client_fetch_headers env.fetch_ret,
        Call.esp_http_client_get_status_code env.status_code] ++ tail, by rw [h1]; simp, ?_⟩
      intro c hc
      rcases List.mem_append.mp hc with hc | hc
      · simp only [List.mem_cons, List.mem_singleton, List.not_mem_nil, or_false] at hc
        rcases hc with hc | hc <;> subst hc <;> rfl
      · exact h2 c hc
    · obtain ⟨tail, h1, h2⟩ := post_cmd_exit_trace env.perform_ret (some s) true true true
        (tr ++ [Call.esp_http_client_fetch_headers env.fetch_ret]
          ++ [Call.esp_http_client_get_status_code env.status_code]
          ++ [Call.esp_http_client_perform env.perform_ret])
      refine ⟨[Call.esp_http_client_fetch_headers env.fetch_ret,
        Call.esp_http_client_get_status_code env.status_code,
        Call.esp_http_client_perform env.perform_ret] ++ tail, by rw [h1]; simp, ?_⟩
      intro c hc
      rcases List.mem_append.mp hc with hc | hc
      · simp only [List.mem_cons, List.mem_singleton, List.not_mem_nil, or_false] at hc
        rcases hc with hc | hc | hc <;> subst hc <;> rfl
      · exact h2 c hc

/-- On an environment that `connects`, the upload handler is lines 581-716 from a session with
the fresh storage handle and `post_size` 0, on a trace without HTTP open or write. -/
theorem post_reaches_connect (env : PostEnv) (sp0 : Option at_fs_to_http_server_t)
    (h : env.connects) :
    ∃ path tr s, env.dst_path = some path ∧ s.fs_handle = some (env.fresh_handle path) ∧
      s.post_size = 0 ∧ (∀ c ∈ tr, c.is_http_send = false) ∧
      at_setup_cmd_fs_to_http_server 2 env sp0 = post_connect env s tr := by
  obtain ⟨h1, h2, h3, h4, h5, h6, h7, h8, h9, h10, h11, h12, h13, h14, h15, h16, h17⟩ := h
  obtain ⟨path, hpath⟩ := Option.isSome_iff_exists.mp h2
  have hbegin : at_fs_to_http_begin env path = ⟨some (env.fresh_handle path),
      [Call.at_fatfs_mount true, Call.calloc_fs_handle true, Call.calloc_path true,
        Call.stat true, Call.fopen true]⟩ := by
    simp [at_fs_to_http_begin, PostEnv.fresh_handle, h7, h8, h9, h10, h11]
  obtain ⟨r, hr, -, -, -, -⟩ := recv_url_loop_spec env.url_len env.wakeups []
    (List.replicate (env.url_len + 1).toNat (Char.ofNat 0)) 0
    ([Call.calloc_session true, Call.at_fatfs_mount true, Call.calloc_fs_handle true,
      Call.calloc_path true, Call.stat true, Call.fopen true, Call.calloc_url true,
      Call.xSemaphoreCreateBinary true, Call.esp_at_port_enter_specific,
      Call.esp_at_response_result_prompt])
    (by simp) h4 (by simpa using h14)
  simp only [List.nil_append] at hr
  refine ⟨path, r.trace, (⟨some r.url, 0, true, false, some (env.fresh_handle path)⟩ :
    at_fs_to_http_server_t), hpath, rfl, rfl, ?_, ?_⟩
  · intro c hc
    rcases recv_url_loop_trace _ _ _ _ _ _ r hr c hc with hc | hc
    · simp only [List.mem_cons, List.mem_singleton, List.not_mem_nil, or_false] at hc
      rcases hc with hc | hc | hc | hc | hc | hc | hc | hc | hc | hc <;> subst hc <;> rfl
    · cases c <;> first | rfl | (simp [Call.is_port_call] at hc)
  · have hnot : ¬ (env.url_len ≤ 0 ∨ env.url_len > AT_URL_LEN_MAX) := by
      simp only [AT_URL_LEN_MAX] at h5 ⊢; omega
    simp [at_setup_cmd_fs_to_http_server, h1, hpath, at_str_is_null, h3, hnot, post_run, h6,
      hbegin, h12, h13, hr]

/-- Lines 581-716 with the client and the framing buffers obtained, from the fresh storage
handle and `post_size` 0: the trace of every result is a part without HTTP open or write, the
one `esp_http_client_open` call with the body length, and a rest without another open; when
the result code is `ESP_AT_RESULT_CODE_OK`, the byte counts of the HTTP writes of the rest,
returned and requested, both add up to the body length. -/
theorem post_connect_accounting (env : PostEnv) (s : at_fs_to_http_server_t) (tr : List Call)
    (path : List Char) (r : PostResult)
    (hclient : env.client_init_ok = true) (hbs : env.calloc_body_start_ok = true)
    (hbe : env.calloc_body_end_ok = true)
    (hs : s.fs_handle = some (env.fresh_handle path)) (hp : s.post_size = 0)
    (htr : ∀ c ∈ tr, c.is_http_send = false)
    (hwf : ∀ st ∈ env.steps, ∀ len, st.write len ≤ len)
    (hfit : env.body_length path < 2147483648)
    (hr : post_connect env s tr = some r) :
    ∃ pre rest,
      r.trace = pre ++ [Call.esp_http_client_open (env.body_length path) env.open_ret] ++ rest ∧
      (∀ c ∈ pre, c.is_http_send = false) ∧
      (∀ c ∈ rest, ∀ len ret, c ≠ Call.esp_http_client_open len ret) ∧
      (r.code = ResultCode.ESP_AT_RESULT_CODE_OK →
        http_written rest = env.body_length path ∧
        http_requested rest = env.body_length path) := by
  unfold post_connect at hr
  simp only [hclient, hbs, hbe, hs, PostEnv.fresh_handle, snprintf, Bool.not_true,
    Bool.false_eq_true, if_false, or_self] at hr
  have hsz : env.st_size % 4294967296 = env.st_size := by
    unfold PostEnv.body_length at hfit; omega
  have hX : toI32 (((env.st_size % 4294967296 : Nat) : Int)
      + ((body_start_text boundary (AT_FATFS_MOUNT_POINT ++ "/".toList ++ path)).length : Int)
      + ((body_end_text boundary).length : Int)) = env.body_length path := by
    unfold PostEnv.body_length at hfit ⊢
    unfold toI32; simp only; omega
  have hXS : env.body_length path
      = ((body_start_text boundary (AT_FATFS_MOUNT_POINT ++ "/".toList ++ path)).length : Int)
        + (env.st_size : Int) + ((body_end_text boundary).length : Int) := rfl
  rw [hX] at hr
  have hS0 : (0 : Int) ≤ ((body_start_text boundary
      (AT_FATFS_MOUNT_POINT ++ "/".toList ++ path)).length : Int) := Int.ofNat_nonneg _
  have hE0 : (0 : Int) ≤ ((body_end_text boundary).length : Int) := Int.ofNat_nonneg _
  generalize ((body_start_text boundary (AT_FATFS_MOUNT_POINT ++ "/".toList ++ path)).length
    : Int) = S at hr hXS hS0
  generalize ((body_end_text boundary).length : Int) = E at hr hXS hE0
  generalize List.take (512 - 1) (body_start_text boundary
    (AT_FATFS_MOUNT_POINT ++ "/".toList ++ path)) = bufS at hr
  generalize List.take (512 - 1) (body_end_text boundary) = bufE at hr
  generalize hpre : tr ++ [Call.esp_http_client_init true, Call.esp_http_client_set_method_post,
    Call.esp_http_client_set_header "Content-Type".toList
      (List.take (128 - 1) (content_type_text boundary)),
    Call.esp_at_http_set_header_if_config, Call.calloc_body_start true,
    Call.calloc_body_end true] = pre at hr
  have hpre_quiet : ∀ c ∈ pre, c.is_http_send = false := by
    intro c hc
    rw [← hpre] at hc
    rcases List.mem_append.mp hc with hc | hc
    · exact htr c hc
    · simp only [List.mem_cons, List.mem_singleton, List.not_mem_nil, or_false] at hc
      rcases hc with hc | hc | hc | hc | hc | hc <;> subst hc <;> rfl
  -- every exit with a non-zero `ret`
  have exit_case : ∀ (ret : Int) (sp : Option at_fs_to_http_server_t) (d b1 b2 : Bool)
      (full mid : List Call),
      full = pre ++ [Call.esp_http_client_open (env.body_length path) env.open_ret] ++ mid →
      (∀ c ∈ mid, ∀ len ret, c ≠ Call.esp_http_client_open len ret) →
      ret ≠ ESP_OK → post_cmd_exit ret sp d b1 b2 full = r →
      ∃ pre rest,
        r.trace = pre ++ [Call.esp_http_client_open (env.body_length path) env.open_ret]
          ++ rest ∧
        (∀ c ∈ pre, c.is_http_send = false) ∧
        (∀ c ∈ rest, ∀ len ret, c ≠ Call.esp_http_client_open len ret) ∧
        (r.code = ResultCode.ESP_AT_RESULT_CODE_OK →
          http_written rest = env.body_length path ∧
          http_requested rest = env.body_length path) := by
    intro ret sp d b1 b2 full mid hfull hmid hret hreq
    obtain ⟨tail, ht1, ht2⟩ := post_cmd_exit_trace ret sp d b1 b2 full
    refine ⟨pre, mid ++ tail, by rw [← hreq, ht1, hfull]; simp, hpre_quiet, ?_, ?_⟩
    · intro c hc
      rcases List.mem_append.mp hc with hc | hc
      · exact hmid c hc
      · exact quiet_not_open tail ht2 c hc
    · intro hcode
      rw [← hreq, post_cmd_exit_code] at hcode
      exact absurd hcode hret
  have hw_not_open : ∀ (b : List Char) (l x : Int) (c : Call),
      c ∈ [Call.esp_http_client_write b l x] → ∀ len ret,
      c ≠ Call.esp_http_client_open len ret := by
    intro b l x c hc len ret he
    simp only [List.mem_singleton] at hc
    rw [hc] at he
    cases he
  split at hr
  · rename_i hopen
    injection hr with hr
    exact exit_case env.open_ret _ false true true _ [] (by simp) (by simp) hopen hr
  · split at hr
    · injection hr with hr
      exact exit_case ESP_FAIL _ false true true _ _ rfl (hw_not_open _ _ _)
        (by simp [ESP_FAIL, ESP_OK]) hr
    · rename_i hstart
      split at hr
      · injection hr with hr
        refine exit_case ESP_ERR_NO_MEM _ false true true _
          ([Call.esp_http_client_write bufS S (env.start_write S)] ++ [Call.malloc_data false])
          (by simp) ?_ (by simp [ESP_ERR_NO_MEM, ESP_OK]) hr
        intro c hc len ret he
        simp only [List.mem_append, List.mem_singleton] at hc
        rcases hc with hc | hc <;> (rw [hc] at he; cases he)
      · cases hl : upload_loop env.file env.steps
            { url := s.url, post_size := s.post_size, sync_sema := s.sync_sema, client := true,
              fs_handle := some
                { fs_mounted := true, path := some (AT_FATFS_MOUNT_POINT ++ "/".toList ++ path),
                  fp := true, total_size := env.st_size % 4294967296, had_read_size := 0 } }
            (pre ++ [Call.esp_http_client_open (env.body_length path) env.open_ret] ++
              [Call.esp_http_client_write bufS S (env.start_write S)] ++
              [Call.malloc_data true]) with
        | none => rw [hl] at hr; cases hr
        | some g =>
          rw [hl] at hr
          simp only at hr
          obtain ⟨new, hnew, hnopen, hgret, hgok⟩ := upload_loop_accounting env.file env.steps _ _
            { fs_mounted := true, path := some (AT_FATFS_MOUNT_POINT ++ "/".toList ++ path),
              fp := true, total_size := env.st_size % 4294967296, had_read_size := 0 }
            g rfl hwf (by show env.st_size % 4294967296 < 2147483648; omega)
            (Nat.zero_le _) (by show 0 ≤ s.post_size; omega)
            (by show s.post_size ≤ ((0 : Nat) : Int); simp [hp]) hl
          have hmid : ∀ c ∈ [Call.esp_http_client_write bufS S (env.start_write S)]
              ++ [Call.malloc_data true] ++ new
              ++ [Call.esp_http_client_write bufE E (env.end_write E)],
              ∀ len ret, c ≠ Call.esp_http_client_open len ret := by
            intro c hc len ret he
            simp only [List.mem_append, List.mem_singleton] at hc
            rcases hc with ((hc | hc) | hc) | hc
            · rw [hc] at he; cases he
            · rw [hc] at he; cases he
            · exact hnopen c hc len ret he
            · rw [hc] at he; cases he
          have hfull : g.trace ++ [Call.esp_http_client_write bufE E (env.end_write E)]
              = pre ++ [Call.esp_http_client_open (env.body_length path) env.open_ret]
                ++ ([Call.esp_http_client_write bufS S (env.start_write S)]
                  ++ [Call.malloc_data true] ++ new
                  ++ [Call.esp_http_client_write bufE E (env.end_write E)]) := by
            rw [hnew]; simp
          split at hr
          · injection hr with hr
            exact exit_case ESP_FAIL _ true true true _ _ hfull hmid
              (by simp [ESP_FAIL, ESP_OK]) hr
          · rename_i hend
            split at hr
            · rename_i hgne
              injection hr with hr
              exact exit_case g.ret _ true true true _ _ hfull hmid hgne hr
            · rename_i hgeq
              injection hr with hr
              obtain ⟨tail, ht1, ht2⟩ := post_response_trace env g.s
                (g.trace ++ [Call.esp_http_client_write bufE E (env.end_write E)])
              have hg : g.ret = ESP_OK := by
                by_contra hne; exact hgeq hne
              obtain ⟨-, hw1, hw2⟩ := hgok hg
              have hstart2 : env.start_write S = S := by
                by_contra hne; exact hstart hne
              have hend2 : env.end_write E = E := by
                by_contra hne; exact hend hne
              refine ⟨pre, [Call.esp_http_client_write bufS S (env.start_write S)]
                  ++ [Call.malloc_data true] ++ new
                  ++ [Call.esp_http_client_write bufE E (env.end_write E)] ++ tail,
                by rw [← hr, ht1, hfull]; simp, hpre_quiet, ?_, fun _ => ⟨?_, ?_⟩⟩
              · intro c hc
                rcases List.mem_append.mp hc with hc | hc
                · exact hmid c hc
                · exact quiet_not_open tail ht2 c hc
              · simp only [http_written_append, (http_written_quiet tail ht2).1, hw1]
                simp [http_written, Call.http_write_ret, hstart2, hend2, hp, hsz, hXS]
              · simp only [http_requested_append, (http_written_quiet tail ht2).2, hw2]
                simp [http_requested, Call.http_write_len, hsz, hXS]

/-! ## Claims on the upload -/

/-- C8. Upload byte accounting: on an environment on which the upload handler opens the
connection (parameters accepted, resources allocated, URL received, client and framing
buffers obtained), for a file of size `N = st_size` whose body length fits the `int` argument
and HTTP writes that never return more than requested, every result of the handler shows
exactly one `esp_http_client_open`, called with `start_len + total_size + end_len`, and when
the result code is `ESP_AT_RESULT_CODE_OK` the byte counts of all `esp_http_client_write`
calls (body start, file chunks, body end), returned and requested, add up to that value. -/
theorem upload_byte_accounting (env : PostEnv) (sp0 : Option at_fs_to_http_server_t)
    (path : List Char) (r : PostResult)
    (hconn : env.connects) (hpath : env.dst_path = some path)
    (hwf : ∀ st ∈ env.steps, ∀ len, st.write len ≤ len)
    (hfit : env.body_length path < 2147483648)
    (hr : at_setup_cmd_fs_to_http_server 2 env sp0 = some r) :
    Call.esp_http_client_open (env.body_length path) env.open_ret ∈ r.trace ∧
    (∀ len ret, Call.esp_http_client_open len ret ∈ r.trace → len = env.body_length path) ∧
    (r.code = ResultCode.ESP_AT_RESULT_CODE_OK →
      http_written r.trace = env.body_length path ∧
      http_requested r.trace = env.body_length path) := by
  obtain ⟨p, tr, s, hp, hs, hpost, htr, hrun⟩ := post_reaches_connect env sp0 hconn
  rw [hpath] at hp
  injection hp with hp
  subst hp
  rw [hrun] at hr
  obtain ⟨pre, rest, htrace, hpre, hrest, hsum⟩ := post_connect_accounting env s tr path r
    hconn.2.2.2.2.2.2.2.2.2.2.2.2.2.2.1 hconn.2.2.2.2.2.2.2.2.2.2.2.2.2.2.2.1
    hconn.2.2.2.2.2.2.2.2.2.2.2.2.2.2.2.2 hs hpost htr hwf hfit hr
  refine ⟨by rw [htrace]; simp, ?_, ?_⟩
  · intro len ret hmem
    rw [htrace] at hmem
    simp only [List.mem_append, List.mem_singleton] at hmem
    rcases hmem with (hmem | hmem) | hmem
    · have := hpre _ hmem
      cases this
    · injection hmem with h1 h2
    · exact absurd rfl (hrest _ hmem len ret)
  · intro hcode
    obtain ⟨h1, h2⟩ := hsum hcode
    rw [htrace, http_written_append, http_written_append, http_requested_append,
      http_requested_append, (http_written_quiet pre hpre).1, (http_written_quiet pre hpre).2,
      h1, h2]
    simp [http_written, http_requested, Call.http_write_ret, Call.http_write_len]

/-- C8 at `env_upload`, the upload of the 5-byte file `hello`: the handler succeeds, opens the
connection with 206 + 5 + 22 = 233 and its writes add up to 233. -/
theorem upload_byte_accounting_witness :
    (env_upload.connects ∧ env_upload.body_length "a.bin".toList < 2147483648) ∧
    ∃ r, at_setup_cmd_fs_to_http_server 2 env_upload none = some r ∧
      r.code = ResultCode.ESP_AT_RESULT_CODE_OK ∧
      Call.esp_http_client_open 233 0 ∈ r.trace ∧
      http_written r.trace = 233 ∧ http_requested r.trace = 233 := by
  refine ⟨⟨by decide, by decide⟩, ?_⟩
  have hsome : ((at_setup_cmd_fs_to_http_server 2 env_upload none).map
      fun r => r.code) = some ResultCode.ESP_AT_RESULT_CODE_OK := by decide
  obtain ⟨r, hr, hcode⟩ := Option.map_eq_some'.mp hsome
  obtain ⟨h1, -, h3⟩ := upload_byte_accounting env_upload none "a.bin".toList r (by decide) rfl
    (by intro st hst len
        simp only [env_upload, List.mem_cons, List.mem_singleton, List.not_mem_nil,
          or_false] at hst
        rcases hst with hst | hst <;> subst hst <;> exact le_refl _)
    (by decide) hr
  have hb : env_upload.body_length "a.bin".toList = 233 := by decide
  rw [hb] at h1 h3
  exact ⟨r, hr, hcode, h1, h3 hcode⟩

/-- C9 (the code departs from it). At `env_upload_empty`, the upload of a 0-byte file on which
every call of the environment succeeds, the first `at_fs_read` of the loop returns 0 and the
loop exits with `ret = ESP_FAIL`; the calls on the connection are the open with length
206 + 0 + 22, the write of the body start and the write of the body end, and no header fetch;
the handler returns `ESP_AT_RESULT_CODE_ERROR`. -/
theorem empty_file_upload_fails :
    (at_setup_cmd_fs_to_http_server 2 env_upload_empty none).map
        (fun r => (r.code, r.ret, r.at_exit.map (fun s => s.post_size),
          r.trace.filter Call.is_http_call))
      = some (ResultCode.ESP_AT_RESULT_CODE_ERROR, ESP_FAIL, some 0,
          [Call.esp_http_client_open 228 0,
           Call.esp_http_client_write (body_start_text boundary "/fatfs/a.bin".toList) 206 206,
           Call.esp_http_client_write (body_end_text boundary) 22 22]) := by
  decide

/-- C10 (the code departs from it). At `env_upload_long`, an upload whose absolute path of 412
characters makes the formatted body start 606 characters long, the handler opens the
connection with length 606 + 5 + 22 and asks `esp_http_client_write` to write 606 bytes from
the buffer in which `snprintf` stored 511, then sends the file and the body end and returns
`ESP_AT_RESULT_CODE_OK`. -/
theorem long_path_preamble_overruns :
    (at_setup_cmd_fs_to_http_server 2 env_upload_long none).map
        (fun r => (r.code, r.trace.filter (fun c => match c with
            | Call.esp_http_client_open _ _ => true
            | _ => false),
          r.trace.filterMap Call.write_shape))
      = some (ResultCode.ESP_AT_RESULT_CODE_OK, [Call.esp_http_client_open 633 0],
          [(511, 606), (5, 5), (22, 22)]) := by
  decide

/-! ## Claim on the chunked flag -/

/-- C15 as stated fails. From the session as it is before the client is created, a
`Content-Length: 10` header followed by data and a `Content-Length: 20` header leaves
`total_size` at 20, not at the 10 of the first header; `is_chunked` is false after both. -/
theorem later_content_length_overwrites :
    (dispatch session_before_client [content_length "10"]).total_size = 10 ∧
    (dispatch session_before_client
      [content_length "10", HttpEvent.HTTP_EVENT_ON_DATA 3, content_length "20"]).total_size = 20 ∧
    (dispatch session_before_client
      [content_length "10", HttpEvent.HTTP_EVENT_ON_DATA 3, content_length "20"]).is_chunked
        = false := by
  decide

/-- C15, amended. From a session with `is_chunked = true`, for events `pre` without a header
whose key is exactly `Content-Length`, then such a header with value `v`, then any events
`post`: `is_chunked` is still true after `pre`; it is false after the header and after every
continuation `post`, further headers included; `total_size` is the value of the most recent
`Content-Length` header, that is `atoi v` when `post` holds no such header and `atoi w` when
the last one in `post` has the value `w`. -/
theorem chunked_flag_latches (s : at_httpget_to_fs_t) (pre post : List HttpEvent) (v : String)
    (h0 : s.is_chunked = true) (hpre : ∀ w, content_length w ∉ pre) :
    (dispatch s pre).is_chunked = true ∧
    (dispatch s (pre ++ content_length v :: post)).is_chunked = false ∧
    ((∀ w, content_length w ∉ post) →
      (dispatch s (pre ++ content_length v :: post)).total_size = atoi v) ∧
    (∀ mid w last, post = mid ++ content_length w :: last → (∀ u, content_length u ∉ last) →
      (dispatch s (pre ++ content_length v :: post)).total_size = atoi w) := by
  have hhead : ∀ (t : at_httpget_to_fs_t) (u : String),
      (at_http_get_event_handler t (content_length u)).is_chunked = false ∧
      (at_http_get_event_handler t (content_length u)).total_size = atoi u := by
    intro t u
    simp [at_http_get_event_handler, content_length]
  have hfalse : ∀ (evs : List HttpEvent) (t : at_httpget_to_fs_t), t.is_chunked = false →
      (dispatch t evs).is_chunked = false := by
    intro evs
    induction evs with
    | nil => intro t ht; exact ht
    | cons e es ih =>
      intro t ht
      rw [dispatch_cons]
      apply ih
      cases e <;> simp [at_http_get_event_handler, ht]
      split <;> simp [ht]
  refine ⟨?_, ?_, ?_, ?_⟩
  · rw [(dispatch_no_content_length pre s hpre).1, h0]
  · rw [dispatch_append, dispatch_cons]
    exact hfalse post _ (hhead _ v).1
  · intro hpost
    rw [dispatch_append, dispatch_cons, (dispatch_no_content_length post _ hpost).2]
    exact (hhead _ v).2
  · intro mid w last hsplit hlast
    rw [hsplit, dispatch_append, dispatch_cons, dispatch_append, dispatch_cons,
      (dispatch_no_content_length last _ hlast).2]
    exact (hhead _ w).2

/-- C15, amended, on the session before the client is created: after a connect event and a
`Content-Type` header the flag is true; `Content-Length: 10` clears it; 3 bytes of data and a
`Content-Length: 20` header later it is still false and `total_size` is 20. -/
theorem chunked_flag_latches_witness :
    (dispatch session_before_client [HttpEvent.HTTP_EVENT_ON_CONNECTED,
      HttpEvent.HTTP_EVENT_ON_HEADER "Content-Type" "text/plain"]).is_chunked = true ∧
    (dispatch session_before_client ([HttpEvent.HTTP_EVENT_ON_CONNECTED,
      HttpEvent.HTTP_EVENT_ON_HEADER "Content-Type" "text/plain"] ++ content_length "10" ::
        [HttpEvent.HTTP_EVENT_ON_DATA 3, content_length "20"])).is_chunked = false ∧
    (dispatch session_before_client ([HttpEvent.HTTP_EVENT_ON_CONNECTED,
      HttpEvent.HTTP_EVENT_ON_HEADER "Content-Type" "text/plain"] ++ content_length "10" ::
        [HttpEvent.HTTP_EVENT_ON_DATA 3, content_length "20"])).total_size = atoi "20" := by
  have h := chunked_flag_latches session_before_client
    [HttpEvent.HTTP_EVENT_ON_CONNECTED, HttpEvent.HTTP_EVENT_ON_HEADER "Content-Type" "text/plain"]
    [HttpEvent.HTTP_EVENT_ON_DATA 3, content_length "20"] "10" rfl (by simp [content_length])
  exact ⟨h.1, h.2.1, h.2.2.2 [HttpEvent.HTTP_EVENT_ON_DATA 3] "20" [] rfl (by simp)⟩

/-! ## Teardown -/

theorem http_to_fs_clean_eq (g : at_httpget_to_fs_t) :
    at_http_to_fs_clean (some g) = (none, release_order.filter g.holds) := by
  rcases g with ⟨url, ts, rs, ch, sema, client, fs⟩
  rcases fs with _ | ⟨mounted, path, fp, a, t, w⟩
  · cases url <;> cases sema <;> cases client <;> rfl
  · cases url <;> cases sema <;> cases client <;> cases mounted <;> cases path <;> cases fp <;> rfl

theorem fs_to_http_clean_eq (p : at_fs_to_http_server_t) :
    at_fs_to_http_clean (some p) = (none, release_order.filter p.holds) := by
  rcases p with ⟨url, ps, sema, client, fs⟩
  rcases fs with _ | ⟨mounted, path, fp, t, h⟩
  · cases url <;> cases sema <;> cases client <;> rfl
  · cases url <;> cases sema <;> cases client <;> cases mounted <;> cases path <;> cases fp <;> rfl

/-! ## Claim on the teardown -/

/-- C12. Teardown of a session in any state, for `at_http_to_fs_clean` and for
`at_fs_to_http_clean`: the releases performed are those of `release_order` (semaphore, URL
buffer, HTTP client, file, path, unmount, storage handle, session structure, each listed once)
whose resource the session holds, in that order, so every resource present is released once
and none that is absent; the session slot is empty afterwards; on an empty slot, and so on a
second call, the function performs no release and leaves the slot empty. -/
theorem teardown_releases_once (g : at_httpget_to_fs_t) (p : at_fs_to_http_server_t) :
    release_order.Nodup ∧
    at_http_to_fs_clean (some g) = (none, release_order.filter g.holds) ∧
    at_http_to_fs_clean (at_http_to_fs_clean (some g)).1
      = ((at_http_to_fs_clean (some g)).1, []) ∧
    at_fs_to_http_clean (some p) = (none, release_order.filter p.holds) ∧
    at_fs_to_http_clean (at_fs_to_http_clean (some p)).1
      = ((at_fs_to_http_clean (some p)).1, []) :=
  ⟨by decide, http_to_fs_clean_eq g, rfl, fs_to_http_clean_eq p, rfl⟩

/-! ## Claim on the response status -/

/-- C11 (the code departs from it). At `env_upload_status_zero`, an upload whose body was sent
in full and whose header fetch returned 0, with the status code 0: line 688 sets
`ret = -status_code`, which is `ESP_OK`; the handler does not call perform and returns
`ESP_AT_RESULT_CODE_OK`. -/
theorem status_zero_reports_ok :
    (at_setup_cmd_fs_to_http_server 2 env_upload_status_zero none).map
        (fun r => (r.code, r.ret, r.trace.filter (fun c => match c with
            | Call.esp_http_client_fetch_headers _ => true
            | Call.esp_http_client_get_status_code _ => true
            | Call.esp_http_client_perform _ => true
            | _ => false)))
      = some (ResultCode.ESP_AT_RESULT_CODE_OK, ESP_OK,
          [Call.esp_http_client_fetch_headers 0, Call.esp_http_client_get_status_code 0]) := by
  decide

/-! ## Upload: bytes on the connection -/

theorem http_sent_append (a b : List Call) : http_sent (a ++ b) = http_sent a ++ http_sent b := by
  simp [http_sent]

theorem http_sent_quiet (tr : List Call) (h : ∀ c ∈ tr, c.is_http_send = false) :
    http_sent tr = [] := by
  induction tr with
  | nil => rfl
  | cons c cs ih =>
    have hc := h c (by simp)
    have hz : c.http_write_bytes = [] := by
      cases c <;> first | rfl | (simp [Call.is_http_send] at hc)
    have := ih (fun x hx => h x (List.mem_cons_of_mem _ hx))
    simp only [http_sent, List.flatMap_cons] at this ⊢
    rw [hz, this]
    rfl

theorem take_eq_take_length (l : List Char) (m : Nat) : l.take m = l.take (l.take m).length := by
  rw [List.length_take]
  rcases le_total m l.length with h | h
  · rw [min_eq_left h]
  · rw [min_eq_right h, List.take_of_length_le h, List.take_length]

/-- The function `at_fs_read` on an open file when `fseek` succeeds: the bytes from `had_read_size` on, at
most `len` and at most what `fread` delivers, are returned and counted. -/
theorem at_fs_read_seek_ok (h : at_read_fs_handle_t) (file : List Char) (len cap : Nat)
    (hfp : h.fp = true) :
    at_fs_read (some h) file true len true cap =
      ⟨toI32 ((file.drop h.had_read_size).take (min len cap)).length,
        (file.drop h.had_read_size).take (min len cap),
        some { h with had_read_size :=
          (h.had_read_size + ((file.drop h.had_read_size).take (min len cap)).length)
            % 4294967296 },
        [Call.fseek h.had_read_size true,
          Call.fread len ((file.drop h.had_read_size).take (min len cap)).length]⟩ := by
  unfold at_fs_read
  simp [hfp]

/-- The function `at_fs_read` on an open file when `fseek` fails. -/
theorem at_fs_read_seek_fail (h : at_read_fs_handle_t) (file : List Char) (len cap : Nat)
    (hfp : h.fp = true) :
    at_fs_read (some h) file true len false cap =
      ⟨ESP_FAIL, [], some h, [Call.fseek h.had_read_size false]⟩ := by
  unfold at_fs_read
  simp [hfp]

/-- The upload loop on an open file, from consistent counters and with HTTP writes that never
return more than asked: when it leaves `ret` at `ESP_OK`, the session had posted all it had
read, every write took its whole buffer, and the bytes written are those of the file from
`had_read_size` up to `total_size`. -/
theorem upload_loop_content (file : List Char) (steps : List UlStep)
    (s : at_fs_to_http_server_t) (tr : List Call) (h : at_read_fs_handle_t) (g : PostState)
    (hs : s.fs_handle = some h) (hfp : h.fp = true)
    (hwf : ∀ st ∈ steps, ∀ len, st.write len ≤ len)
    (htot : h.total_size < 2147483648) (hhad : h.had_read_size ≤ h.total_size)
    (hpost0 : 0 ≤ s.post_size) (hpost : s.post_size ≤ h.had_read_size)
    (hg : upload_loop file steps s tr = some g) (hok : g.ret = ESP_OK) :
    ∃ new, g.trace = tr ++ new ∧ s.post_size = h.had_read_size ∧
      (http_sent new).length = h.total_size - h.had_read_size ∧
      http_sent new = (file.drop h.had_read_size).take (h.total_size - h.had_read_size) := by
  induction steps generalizing s tr h with
  | nil => simp [upload_loop] at hg
  | cons st rest ih =>
    rw [upload_loop] at hg
    simp only [hs] at hg
    have hun : toI32 ((h.total_size : Int) - (h.had_read_size : Int))
        = (h.total_size : Int) - (h.had_read_size : Int) := by
      unfold toI32; simp only; omega
    rw [hun] at hg
    generalize hlen : toU32 (if (AT_HEAP_BUFFER_SIZE : Int) < (h.total_size : Int) - h.had_read_size
      then (AT_HEAP_BUFFER_SIZE : Int) else (h.total_size : Int) - h.had_read_size) = len at hg
    have hlen1 : len ≤ h.total_size - h.had_read_size := by
      rw [← hlen]; unfold toU32 AT_HEAP_BUFFER_SIZE; split <;> omega
    clear hlen hun
    by_cases hseek : st.seek_ok = true
    · rw [hseek, at_fs_read_seek_ok h file len st.fread_cap hfp] at hg
      generalize hb : (file.drop h.had_read_size).take (min len st.fread_cap) = bytes at hg
      have hbl : bytes.length ≤ len := by rw [← hb, List.length_take]; omega
      have hbt : bytes = (file.drop h.had_read_size).take bytes.length := by
        rw [← hb]; exact take_eq_take_length _ _
      have hret : toI32 (bytes.length : Int) = (bytes.length : Int) := by
        unfold toI32; simp only; omega
      rw [hret] at hg
      by_cases h0 : (bytes.length : Int) ≤ 0
      · rw [if_pos h0] at hg
        injection hg with hg
        subst hg
        simp [ESP_FAIL, ESP_OK] at hok
      · rw [if_neg h0] at hg
        have hw := hwf st (by simp) (bytes.length : Int)
        by_cases hwpos : st.write (bytes.length : Int) > 0
        · rw [if_pos hwpos] at hg
          have hps : toI32 (s.post_size + st.write (bytes.length : Int))
              = s.post_size + st.write (bytes.length : Int) := by
            unfold toI32; simp only; omega
          simp only [hps] at hg
          by_cases hdone : toU32 (s.post_size + st.write (bytes.length : Int)) = h.total_size
          · rw [if_pos hdone] at hg
            injection hg with hg
            subst hg
            have hpt : s.post_size + st.write (bytes.length : Int) = h.total_size := by
              unfold toU32 at hdone; omega
            have hw2 : st.write (bytes.length : Int) = (bytes.length : Int) := by omega
            have hbk : bytes.length = h.total_size - h.had_read_size := by omega
            refine ⟨[Call.fseek h.had_read_size true, Call.fread len bytes.length,
              Call.esp_http_client_write bytes bytes.length (st.write bytes.length)],
              by simp, by omega, ?_, ?_⟩
            · simp [http_sent, Call.http_write_bytes, hw2]
              omega
            · simp [http_sent, Call.http_write_bytes, hw2]
              rw [← hbk]; exact hbt
          · rw [if_neg hdone] at hg
            obtain ⟨new, hnew, hpeq, hlen2, hsent⟩ := ih
              { s with
                fs_handle := some { h with had_read_size :=
                  (h.had_read_size + bytes.length) % 4294967296 },
                post_size := s.post_size + st.write (bytes.length : Int) }
              (tr ++ [Call.fseek h.had_read_size true, Call.fread len bytes.length]
                ++ [Call.esp_http_client_write bytes bytes.length (st.write bytes.length)])
              { h with had_read_size := (h.had_read_size + bytes.length) % 4294967296 }
              rfl hfp (fun x hx => hwf x (List.mem_cons_of_mem _ hx)) htot
              (by show (h.had_read_size + bytes.length) % 4294967296 ≤ h.total_size; omega)
              (by show 0 ≤ s.post_size + st.write (bytes.length : Int); omega)
              (by show s.post_size + st.write (bytes.length : Int)
                    ≤ (((h.had_read_size + bytes.length) % 4294967296 : Nat) : Int); omega)
              hg
            have hmod : (h.had_read_size + bytes.length) % 4294967296
                = h.had_read_size + bytes.length := Nat.mod_eq_of_lt (by omega)
            simp only [hmod] at hpeq hlen2 hsent
            have hpeq2 : s.post_size + st.write (bytes.length : Int)
                = ((h.had_read_size + bytes.length : Nat) : Int) := hpeq
            have hw2 : st.write (bytes.length : Int) = (bytes.length : Int) := by
              push_cast at hpeq2; omega
            refine ⟨[Call.fseek h.had_read_size true, Call.fread len bytes.length,
              Call.esp_http_client_write bytes bytes.length (st.write bytes.length)] ++ new,
              by rw [hnew]; simp, ?_, ?_, ?_⟩
            · push_cast at hpeq2; omega
            · rw [http_sent_append, List.length_append, hlen2]
              simp [http_sent, Call.http_write_bytes, hw2]
              omega
            · rw [http_sent_append, hsent]
              simp only [http_sent, List.flatMap_cons, List.flatMap_nil, Call.http_write_bytes,
                hw2, Int.toNat_ofNat, List.nil_append, List.append_nil, List.take_length]
              have hsplit : h.total_size - h.had_read_size
                  = bytes.length + (h.total_size - (h.had_read_size + bytes.length)) := by omega
              rw [hsplit, List.take_add, ← hbt, List.drop_drop]
        · rw [if_neg hwpos] at hg
          have hfail : g.ret = ESP_FAIL := by
            rw [ite_self, Option.some.injEq] at hg
            rw [← hg]
          rw [hfail] at hok
          simp [ESP_FAIL, ESP_OK] at hok
    · have hseek2 : st.seek_ok = false := by simpa using hseek
      rw [hseek2, at_fs_read_seek_fail h file len st.fread_cap hfp] at hg
      rw [if_pos (by simp [ESP_FAIL])] at hg
      injection hg with hg
      subst hg
      simp [ESP_FAIL, ESP_OK] at hok

/-- The upload loop reads from the session only the storage handle and `post_size`, and only
appends to the trace: its run from `s` and `tr` is its run from any session with the same
handle and count and the empty trace, put back into `s` and behind `tr`. -/
theorem upload_loop_frame (file : List Char) (steps : List UlStep)
    (s s' : at_fs_to_http_server_t) (tr : List Call)
    (hfs : s'.fs_handle = s.fs_handle) (hps : s'.post_size = s.post_size) :
    upload_loop file steps s tr = (upload_loop file steps s' []).map fun g =>
      ⟨g.ret, { s with fs_handle := g.s.fs_handle, post_size := g.s.post_size },
        tr ++ g.trace⟩ := by
  induction steps generalizing s s' tr with
  | nil => simp [upload_loop]
  | cons st rest ih =>
    rw [upload_loop, upload_loop, hfs, hps]
    cases hh : s.fs_handle with
    | none => rfl
    | some h =>
      simp only
      generalize at_fs_read (some h) file true _ st.seek_ok st.fread_cap = r
      by_cases hr0 : r.ret ≤ 0
      · simp [hr0, hps]
      · rw [if_neg hr0, if_neg hr0]
        by_cases hw : st.write r.ret > 0
        · rw [if_pos hw, if_pos hw]
          by_cases hdone : toU32 (toI32 (s.post_size + st.write r.ret)) = h.total_size
          · simp [hdone]
          · simp only [hdone, if_false]
            rw [ih { s with fs_handle := r.fs_handle,
                            post_size := toI32 (s.post_size + st.write r.ret) }
                { s' with fs_handle := r.fs_handle,
                          post_size := toI32 (s.post_size + st.write r.ret) }
                (tr ++ r.calls ++ [Call.esp_http_client_write r.data r.ret (st.write r.ret)])
                rfl rfl,
              ih { s' with fs_handle := r.fs_handle,
                           post_size := toI32 (s.post_size + st.write r.ret) }
                { s' with fs_handle := r.fs_handle,
                          post_size := toI32 (s.post_size + st.write r.ret) }
                ([] ++ r.calls ++ [Call.esp_http_client_write r.data r.ret (st.write r.ret)])
                rfl rfl]
            cases upload_loop file rest
              { s' with fs_handle := r.fs_handle,
                        post_size := toI32 (s.post_size + st.write r.ret) } [] with
            | none => rfl
            | some g => simp
        · rw [if_neg hw, if_neg hw, ite_self, ite_self]
          simp

/-- A run of the upload loop on an open file that leaves `ret` different from `ESP_OK` ends
with the failing step: the last call of its trace is a failed `fseek`, an `fread` that
returned `<= 0`, or an HTTP write that returned `<= 0`. -/
theorem upload_loop_failing_step (file : List Char) (steps : List UlStep)
    (s : at_fs_to_http_server_t) (tr : List Call) (h : at_read_fs_handle_t) (g : PostState)
    (hs : s.fs_handle = some h) (hfp : h.fp = true)
    (hg : upload_loop file steps s tr = some g) (hfail : g.ret ≠ ESP_OK) :
    ∃ front c, g.trace = front ++ [c] ∧ c.is_failing_step = true := by
  induction steps generalizing s tr h with
  | nil => simp [upload_loop] at hg
  | cons st rest ih =>
    rw [upload_loop] at hg
    simp only [hs] at hg
    generalize toU32 (if (AT_HEAP_BUFFER_SIZE : Int)
        < toI32 ((h.total_size : Int) - (h.had_read_size : Int))
      then (AT_HEAP_BUFFER_SIZE : Int)
      else toI32 ((h.total_size : Int) - (h.had_read_size : Int))) = len at hg
    by_cases hseek : st.seek_ok = true
    · rw [hseek, at_fs_read_seek_ok h file len st.fread_cap hfp] at hg
      generalize (file.drop h.had_read_size).take (min len st.fread_cap) = bytes at hg
      generalize hret : toI32 (bytes.length : Int) = ret at hg
      by_cases h0 : ret ≤ 0
      · rw [if_pos h0, Option.some.injEq] at hg
        refine ⟨tr ++ [Call.fseek h.had_read_size true], Call.fread len bytes.length, ?_, ?_⟩
        · rw [← hg]; simp
        · simp only [Call.is_failing_step, decide_eq_true_eq, hret]
          exact h0
      · rw [if_neg h0] at hg
        by_cases hwpos : st.write ret > 0
        · rw [if_pos hwpos] at hg
          by_cases hdone : toU32 (toI32 (s.post_size + st.write ret)) = h.total_size
          · simp only [hdone, if_true, Option.some.injEq] at hg
            rw [← hg] at hfail
            exact absurd rfl hfail
          · simp only [hdone, if_false] at hg
            exact ih _ _ { h with had_read_size :=
              (h.had_read_size + bytes.length) % 4294967296 } rfl hfp hg
        · rw [if_neg hwpos, ite_self, Option.some.injEq] at hg
          refine ⟨tr ++ [Call.fseek h.had_read_size true, Call.fread len bytes.length],
            Call.esp_http_client_write bytes ret (st.write ret), ?_, ?_⟩
          · rw [← hg]
          · simp only [Call.is_failing_step, decide_eq_true_eq]
            omega
    · have hseek2 : st.seek_ok = false := by simpa using hseek
      rw [hseek2, at_fs_read_seek_fail h file len st.fread_cap hfp] at hg
      rw [if_pos (by simp [ESP_FAIL]), Option.some.injEq] at hg
      refine ⟨tr, Call.fseek h.had_read_size false, ?_, rfl⟩
      rw [← hg]

/-- The exit of the upload handler empties the session slot and appends only releases to the
trace: no call on the HTTP connection. -/
theorem post_cmd_exit_releases (ret : Int) (sp : Option at_fs_to_http_server_t)
    (d bs be : Bool) (tr : List Call) :
    (post_cmd_exit ret sp d bs be tr).sp_fs_to_http = none ∧
    ∃ tail, (post_cmd_exit ret sp d bs be tr).trace = tr ++ tail ∧
      ∀ c ∈ tail, c.is_http_call = false := by
  have hclean : (at_fs_to_http_clean sp).1 = none ∧
      ∀ c ∈ (at_fs_to_http_clean sp).2, c.is_http_call = false := by
    cases sp with
    | none => exact ⟨rfl, by simp [at_fs_to_http_clean]⟩
    | some p =>
      rw [fs_to_http_clean_eq]
      refine ⟨rfl, ?_⟩
      intro c hc
      have hmem := (List.mem_filter.mp hc).1
      simp only [release_order, List.mem_cons, List.mem_singleton, List.not_mem_nil,
        or_false] at hmem
      rcases hmem with h | h | h | h | h | h | h | h <;> subst h <;> rfl
  refine ⟨hclean.1, (if d then [Call.free_data] else [])
      ++ (if bs then [Call.free_body_start] else [])
      ++ (if be then [Call.free_body_end] else []) ++ (at_fs_to_http_clean sp).2, by
      simp [post_cmd_exit], ?_⟩
  intro c hc
  simp only [List.mem_append] at hc
  rcases hc with ((hc | hc) | hc) | hc
  · split at hc <;> simp at hc; subst hc; rfl
  · split at hc <;> simp at hc; subst hc; rfl
  · split at hc <;> simp at hc; subst hc; rfl
  · exact hclean.2 c hc

/-- Lines 581-638 when the client, the framing buffers, the open of the connection, the write
of the body start and the allocation of `data` all succeed: the trace `pre` before the
allocation holds the `Content-Type` header and the bytes written are the stored body start;
the handler is then the loop followed by lines 665-716. -/
theorem post_connect_loop (env : PostEnv) (s : at_fs_to_http_server_t) (tr : List Call)
    (path : List Char)
    (hclient : env.client_init_ok = true) (hbs : env.calloc_body_start_ok = true)
    (hbe : env.calloc_body_end_ok = true)
    (hs : s.fs_handle = some (env.fresh_handle path))
    (htr : ∀ c ∈ tr, c.is_http_send = false)
    (hopen : env.open_ret = ESP_OK)
    (hstart : env.start_write ((body_start_text boundary
        (AT_FATFS_MOUNT_POINT ++ "/".toList ++ path)).length : Int)
      = ((body_start_text boundary (AT_FATFS_MOUNT_POINT ++ "/".toList ++ path)).length : Int))
    (hmalloc : env.malloc_ok = true) :
    ∃ pre,
      Call.esp_http_client_set_header "Content-Type".toList (content_type_text boundary) ∈ pre ∧
      http_sent pre
        = (body_start_text boundary (AT_FATFS_MOUNT_POINT ++ "/".toList ++ path)).take 511 ∧
      post_connect env s tr =
        (upload_loop env.file env.steps { s with client := true }
            (pre ++ [Call.malloc_data true])).map fun g =>
          if env.end_write 22 ≠ 22 then
            post_cmd_exit ESP_FAIL (some g.s) true true true
              (g.trace ++ [Call.esp_http_client_write (body_end_text boundary) 22
                (env.end_write 22)])
          else if g.ret ≠ ESP_OK then
            post_cmd_exit g.ret (some g.s) true true true
              (g.trace ++ [Call.esp_http_client_write (body_end_text boundary) 22
                (env.end_write 22)])
          else post_response env g.s
              (g.trace ++ [Call.esp_http_client_write (body_end_text boundary) 22
                (env.end_write 22)]) := by
  have hE : snprintf 512 (body_end_text boundary) = (body_end_text boundary, 22) := by decide
  have hC : snprintf 128 (content_type_text boundary) = (content_type_text boundary, 44) := by
    decide
  refine ⟨tr ++ [Call.esp_http_client_init true, Call.esp_http_client_set_method_post,
      Call.esp_http_client_set_header "Content-Type".toList (content_type_text boundary),
      Call.esp_at_http_set_header_if_config, Call.calloc_body_start true,
      Call.calloc_body_end true]
    ++ [Call.esp_http_client_open (toI32 (((env.st_size % 4294967296 : Nat) : Int)
          + ((body_start_text boundary (AT_FATFS_MOUNT_POINT ++ "/".toList ++ path)).length
              : Int) + 22)) env.open_ret]
    ++ [Call.esp_http_client_write
          ((body_start_text boundary (AT_FATFS_MOUNT_POINT ++ "/".toList ++ path)).take 511)
          ((body_start_text boundary (AT_FATFS_MOUNT_POINT ++ "/".toList ++ path)).length : Int)
          ((body_start_text boundary (AT_FATFS_MOUNT_POINT ++ "/".toList ++ path)).length
            : Int)], by simp, ?_, ?_⟩
  · rw [http_sent_append, http_sent_append, http_sent_append, http_sent_quiet tr htr]
    simp only [http_sent, List.flatMap_cons, List.flatMap_nil, Call.http_write_bytes,
      List.nil_append, List.append_nil, Int.toNat_ofNat]
    exact List.take_of_length_le (by rw [List.length_take]; omega)
  · unfold post_connect
    simp only [hclient, hbs, hbe, hs, hE, hC, PostEnv.fresh_handle, Bool.not_true,
      Bool.false_eq_true, if_false, or_self]
    simp only [snprintf, hopen, hstart, hmalloc, ne_eq, not_true_eq_false, if_false,
      Bool.not_true, Bool.false_eq_true, Nat.reduceSub]
    simp only [List.append_assoc, List.cons_append, List.nil_append]
    cases upload_loop env.file env.steps _ _ with
    | none => rfl
    | some g =>
      simp only [Option.map_some']
      split_ifs <;> rfl

/-- A run of lines 581-716 that ends with the result code OK has opened the connection, written
the whole body start and allocated `data`. -/
theorem post_connect_ok (env : PostEnv) (s : at_fs_to_http_server_t) (tr : List Call)
    (path : List Char) (r : PostResult)
    (hclient : env.client_init_ok = true) (hbs : env.calloc_body_start_ok = true)
    (hbe : env.calloc_body_end_ok = true)
    (hs : s.fs_handle = some (env.fresh_handle path))
    (hr : post_connect env s tr = some r)
    (hok : r.code = ResultCode.ESP_AT_RESULT_CODE_OK) :
    env.open_ret = ESP_OK ∧
    env.start_write ((body_start_text boundary
        (AT_FATFS_MOUNT_POINT ++ "/".toList ++ path)).length : Int)
      = ((body_start_text boundary (AT_FATFS_MOUNT_POINT ++ "/".toList ++ path)).length : Int) ∧
    env.malloc_ok = true := by
  unfold post_connect at hr
  simp only [hclient, hbs, hbe, hs, PostEnv.fresh_handle, snprintf, Bool.not_true,
    Bool.false_eq_true, if_false, or_self] at hr
  split at hr
  · rename_i hopen
    exfalso
    injection hr with hr
    rw [← hr, post_cmd_exit_code] at hok
    exact hopen hok
  · rename_i hopen
    split at hr
    · exfalso
      injection hr with hr
      rw [← hr, post_cmd_exit_code] at hok
      simp [ESP_FAIL, ESP_OK] at hok
    · rename_i hstart
      split at hr
      · exfalso
        injection hr with hr
        rw [← hr, post_cmd_exit_code] at hok
        simp [ESP_ERR_NO_MEM, ESP_OK] at hok
      · rename_i hmalloc
        exact ⟨not_not.mp hopen, not_not.mp hstart, by simpa using hmalloc⟩

/-- The framing the handler formats around the file, with its boundary `--myboundary` behind
four dashes, is the multipart body for the boundary parameter value `----myboundary`. -/
theorem multipart_body_eq (path file : List Char) :
    body_start_text boundary path ++ file ++ body_end_text boundary
      = multipart_body "----myboundary".toList path file := by
  simp only [body_start_text, body_end_text, multipart_body, boundary, List.append_assoc]
  rfl

/-! ## Claim on the wire format -/

/-- C13. Multipart wire format: on an environment on which the upload handler reaches the HTTP
client, for a file size that fits an `int`, HTTP writes that never return more than asked and
a body start that fits its 512-byte buffer, every run that ends with
`ESP_AT_RESULT_CODE_OK` has declared the header `Content-Type: multipart/form-data;
boundary=----myboundary`, and the bytes written to the connection are the multipart body for
that boundary value `----myboundary`, the path `/fatfs/<path>` and the first `st_size` bytes of
the file, of which the file holds at least that many: the whole file as `stat` sized it. -/
theorem multipart_wire_format (env : PostEnv) (sp0 : Option at_fs_to_http_server_t)
    (path : List Char) (r : PostResult)
    (hconn : env.connects) (hpath : env.dst_path = some path)
    (hwf : ∀ st ∈ env.steps, ∀ len, st.write len ≤ len)
    (hsize : env.st_size < 2147483648)
    (hfits : (body_start_text boundary (AT_FATFS_MOUNT_POINT ++ "/".toList ++ path)).length
      < 512)
    (hr : at_setup_cmd_fs_to_http_server 2 env sp0 = some r)
    (hok : r.code = ResultCode.ESP_AT_RESULT_CODE_OK) :
    Call.esp_http_client_set_header "Content-Type".toList
        ("multipart/form-data; boundary=".toList ++ "----myboundary".toList) ∈ r.trace ∧
    env.st_size ≤ env.file.length ∧
    http_sent r.trace = multipart_body "----myboundary".toList
        (AT_FATFS_MOUNT_POINT ++ "/".toList ++ path) (env.file.take env.st_size) := by
  obtain ⟨p, tr, s, hp, hs, hpost, htr, hrun⟩ := post_reaches_connect env sp0 hconn
  rw [hpath] at hp
  injection hp with hp
  subst hp
  rw [hrun] at hr
  have hclient := hconn.2.2.2.2.2.2.2.2.2.2.2.2.2.2.1
  have hbs := hconn.2.2.2.2.2.2.2.2.2.2.2.2.2.2.2.1
  have hbe := hconn.2.2.2.2.2.2.2.2.2.2.2.2.2.2.2.2
  obtain ⟨hopen, hstart, hmalloc⟩ := post_connect_ok env s tr path r hclient hbs hbe hs hr hok
  obtain ⟨pre, hmem, hsentpre, heq⟩ :=
    post_connect_loop env s tr path hclient hbs hbe hs htr hopen hstart hmalloc
  rw [heq] at hr
  cases hl : upload_loop env.file env.steps { s with client := true }
      (pre ++ [Call.malloc_data true]) with
  | none => rw [hl] at hr; cases hr
  | some g =>
    rw [hl, Option.map_some', Option.some.injEq] at hr
    by_cases hend : env.end_write 22 ≠ 22
    · rw [if_pos hend] at hr
      rw [← hr, post_cmd_exit_code] at hok
      simp [ESP_FAIL, ESP_OK] at hok
    · rw [if_neg hend] at hr
      by_cases hgr : g.ret ≠ ESP_OK
      · rw [if_pos hgr] at hr
        rw [← hr, post_cmd_exit_code] at hok
        exact absurd hok hgr
      · rw [if_neg hgr] at hr
        have hg0 : g.ret = ESP_OK := not_not.mp hgr
        have hend2 : env.end_write 22 = 22 := not_not.mp hend
        have hmod : env.st_size % 4294967296 = env.st_size := Nat.mod_eq_of_lt (by omega)
        obtain ⟨new, hnew, -, hlen, hsent⟩ := upload_loop_content env.file env.steps
          { s with client := true } (pre ++ [Call.malloc_data true]) (env.fresh_handle path) g
          hs rfl hwf (by show env.st_size % 4294967296 < 2147483648; omega)
          (Nat.zero_le _) (by show 0 ≤ s.post_size; omega)
          (by show s.post_size ≤ ((0 : Nat) : Int); simp [hpost]) hl hg0
        have hsent2 : http_sent new = env.file.take env.st_size := by
          rw [hsent]
          show (env.file.drop 0).take (env.st_size % 4294967296 - 0) = env.file.take env.st_size
          rw [hmod]; rfl
        obtain ⟨tail, ht1, ht2⟩ := post_response_trace env g.s
          (g.trace ++ [Call.esp_http_client_write (body_end_text boundary) 22
            (env.end_write 22)])
        have htrace : r.trace = pre ++ [Call.malloc_data true] ++ new
            ++ [Call.esp_http_client_write (body_end_text boundary) 22 22] ++ tail := by
          rw [← hr, ht1, hnew, hend2]
        have hct : content_type_text boundary
            = "multipart/form-data; boundary=".toList ++ "----myboundary".toList := by decide
        refine ⟨?_, ?_, ?_⟩
        · rw [htrace, ← hct]
          simp only [List.mem_append]
          exact Or.inl (Or.inl (Or.inl (Or.inl hmem)))
        · have := congrArg List.length hsent2
          rw [List.length_take] at this
          have hl2 : (http_sent new).length = env.st_size := by
            rw [hlen]
            show env.st_size % 4294967296 - 0 = env.st_size
            omega
          omega
        · rw [htrace, http_sent_append, http_sent_append, http_sent_append, http_sent_append,
            hsentpre, hsent2, http_sent_quiet tail ht2,
            List.take_of_length_le (by omega), ← multipart_body_eq]
          simp only [http_sent, List.flatMap_cons, List.flatMap_nil, Call.http_write_bytes,
            List.append_nil]
          have he : (body_end_text boundary).take (22 : Int).toNat = body_end_text boundary := by
            decide
          rw [he]

/-- C13 at `env_upload`, the upload of the 5-byte file `hello` at `a.bin`: the handler succeeds
and the bytes on the connection are the two parts and the closing delimiter with the delimiter
`------myboundary`, two dashes and the declared boundary value `----myboundary`. -/
theorem multipart_wire_format_witness :
    (env_upload.connects ∧ env_upload.st_size < 2147483648 ∧
      (body_start_text boundary (AT_FATFS_MOUNT_POINT ++ "/".toList ++ "a.bin".toList)).length
        < 512) ∧
    ∃ r, at_setup_cmd_fs_to_http_server 2 env_upload none = some r ∧
      r.code = ResultCode.ESP_AT_RESULT_CODE_OK ∧
      Call.esp_http_client_set_header "Content-Type".toList
        "multipart/form-data; boundary=----myboundary".toList ∈ r.trace ∧
      http_sent r.trace = ("------myboundary\r\nContent-Disposition: form-data; "
        ++ "name=\"username\"\r\n\r\nAlice\r\n------myboundary\r\nContent-Disposition: "
        ++ "form-data; name=\"file\"; filename=\"/fatfs/a.bin\"\r\nContent-Type: "
        ++ "application/octet-stream\r\n\r\nhello\r\n------myboundary--\r\n").toList := by
  refine ⟨⟨by decide, by decide, by decide⟩, ?_⟩
  have hsome : ((at_setup_cmd_fs_to_http_server 2 env_upload none).map
      fun r => r.code) = some ResultCode.ESP_AT_RESULT_CODE_OK := by decide
  obtain ⟨r, hr, hcode⟩ := Option.map_eq_some'.mp hsome
  obtain ⟨h1, -, h3⟩ := multipart_wire_format env_upload none "a.bin".toList r (by decide) rfl
    (by intro st hst len
        simp only [env_upload, List.mem_cons, List.mem_singleton, List.not_mem_nil,
          or_false] at hst
        rcases hst with hst | hst <;> subst hst <;> exact le_refl _)
    (by decide) (by decide) hr hcode
  have hb : multipart_body "----myboundary".toList
      (AT_FATFS_MOUNT_POINT ++ "/".toList ++ "a.bin".toList)
      (env_upload.file.take env_upload.st_size)
      = ("------myboundary\r\nContent-Disposition: form-data; "
        ++ "name=\"username\"\r\n\r\nAlice\r\n------myboundary\r\nContent-Disposition: "
        ++ "form-data; name=\"file\"; filename=\"/fatfs/a.bin\"\r\nContent-Type: "
        ++ "application/octet-stream\r\n\r\nhello\r\n------myboundary--\r\n").toList := by
    decide
  have hv : "multipart/form-data; boundary=".toList ++ "----myboundary".toList
      = "multipart/form-data; boundary=----myboundary".toList := by decide
  rw [hb] at h3
  rw [hv] at h1
  exact ⟨r, hr, hcode, h1, h3⟩

/-! ## Claim on the failure of the upload loop -/

/-- C14 as stated fails. At `env_upload_aborted`, an upload whose HTTP write of the file chunk
returns -1, the loop ends in failure at that write, and the handler then issues one more HTTP
write, the body end of line 665, before it returns `ESP_AT_RESULT_CODE_ERROR`. -/
theorem failed_write_is_followed_by_body_end :
    (at_setup_cmd_fs_to_http_server 2 env_upload_aborted none).map
        (fun r => (r.code, r.trace.filter Call.is_http_call))
      = some (ResultCode.ESP_AT_RESULT_CODE_ERROR,
          [Call.esp_http_client_open 233 0,
           Call.esp_http_client_write (body_start_text boundary "/fatfs/a.bin".toList) 206 206,
           Call.esp_http_client_write "hello".toList 5 (-1),
           Call.esp_http_client_write (body_end_text boundary) 22 22]) := by
  decide

/-- C14, amended. On an environment on which the upload handler reaches the file-streaming
loop (client and framing buffers obtained, connection opened, body start written in full,
`data` allocated), when the loop ends in failure, its last call being the failing step (a file
read returning `<= 0` or an HTTP write returning `<= 0`): the handler returns, after the
failing step it issues exactly one more call on the connection, the write of the body end of
line 665, and no header fetch or perform; what follows are releases only, the session slot is
empty and the result code is `ESP_AT_RESULT_CODE_ERROR`. -/
theorem failed_loop_writes_body_end (env : PostEnv) (sp0 : Option at_fs_to_http_server_t)
    (path : List Char) (g : PostState)
    (hconn : env.connects) (hpath : env.dst_path = some path)
    (hopen : env.open_ret = ESP_OK)
    (hstart : env.start_write ((body_start_text boundary
        (AT_FATFS_MOUNT_POINT ++ "/".toList ++ path)).length : Int)
      = ((body_start_text boundary (AT_FATFS_MOUNT_POINT ++ "/".toList ++ path)).length : Int))
    (hmalloc : env.malloc_ok = true)
    (hloop : env.file_loop path = some g) (hfail : g.ret ≠ ESP_OK) :
    (∃ front c, g.trace = front ++ [c] ∧ c.is_failing_step = true) ∧
    ∃ r pre tail, at_setup_cmd_fs_to_http_server 2 env sp0 = some r ∧
      r.code = ResultCode.ESP_AT_RESULT_CODE_ERROR ∧ r.sp_fs_to_http = none ∧
      r.trace = pre ++ [Call.malloc_data true] ++ g.trace
        ++ [Call.esp_http_client_write (body_end_text boundary) 22 (env.end_write 22)]
        ++ tail ∧
      ∀ c ∈ tail, c.is_http_call = false := by
  refine ⟨upload_loop_failing_step env.file env.steps _ [] (env.fresh_handle path) g rfl rfl
    hloop hfail, ?_⟩
  obtain ⟨p, tr, s, hp, hs, hpost, htr, hrun⟩ := post_reaches_connect env sp0 hconn
  rw [hpath] at hp
  injection hp with hp
  subst hp
  have hclient := hconn.2.2.2.2.2.2.2.2.2.2.2.2.2.2.1
  have hbs := hconn.2.2.2.2.2.2.2.2.2.2.2.2.2.2.2.1
  have hbe := hconn.2.2.2.2.2.2.2.2.2.2.2.2.2.2.2.2
  obtain ⟨pre, -, -, heq⟩ :=
    post_connect_loop env s tr path hclient hbs hbe hs htr hopen hstart hmalloc
  have hframe := upload_loop_frame env.file env.steps { s with client := true }
    { url := none, post_size := 0, sync_sema := false, client := false,
      fs_handle := some (env.fresh_handle path) }
    (pre ++ [Call.malloc_data true]) hs.symm hpost.symm
  unfold PostEnv.file_loop at hloop
  rw [hloop, Option.map_some'] at hframe
  rw [hrun, heq, hframe, Option.map_some']
  by_cases hend : env.end_write 22 ≠ 22
  · rw [if_pos hend]
    obtain ⟨hnone, tail, ht, hq⟩ := post_cmd_exit_releases ESP_FAIL
      (some { s with client := true, fs_handle := g.s.fs_handle, post_size := g.s.post_size })
      true true true
      (pre ++ [Call.malloc_data true] ++ g.trace
        ++ [Call.esp_http_client_write (body_end_text boundary) 22 (env.end_write 22)])
    exact ⟨_, pre, tail, rfl, by simp [post_cmd_exit, ESP_FAIL, ESP_OK], hnone, ht, hq⟩
  · rw [if_neg hend, if_pos hfail]
    obtain ⟨hnone, tail, ht, hq⟩ := post_cmd_exit_releases g.ret
      (some { s with client := true, fs_handle := g.s.fs_handle, post_size := g.s.post_size })
      true true true
      (pre ++ [Call.malloc_data true] ++ g.trace
        ++ [Call.esp_http_client_write (body_end_text boundary) 22 (env.end_write 22)])
    exact ⟨_, pre, tail, rfl, by simp [post_cmd_exit, hfail], hnone, ht, hq⟩

/-- C14, amended, at `env_upload_aborted`: the loop ends with the HTTP write of `hello` that
returned -1; the handler returns `ESP_AT_RESULT_CODE_ERROR`, and behind the loop its trace
holds the write of the body end and then releases only. -/
theorem failed_loop_writes_body_end_witness :
    (env_upload_aborted.connects ∧ env_upload_aborted.open_ret = ESP_OK ∧
      env_upload_aborted.malloc_ok = true) ∧
    ∃ r pre tail, at_setup_cmd_fs_to_http_server 2 env_upload_aborted none = some r ∧
      r.code = ResultCode.ESP_AT_RESULT_CODE_ERROR ∧ r.sp_fs_to_http = none ∧
      r.trace = pre ++ [Call.malloc_data true]
        ++ [Call.fseek 0 true, Call.fread 5 5, Call.esp_http_client_write "hello".toList 5 (-1)]
        ++ [Call.esp_http_client_write (body_end_text boundary) 22
            (env_upload_aborted.end_write 22)]
        ++ tail ∧
      ∀ c ∈ tail, c.is_http_call = false :=
  ⟨⟨by decide, by decide, rfl⟩,
    (failed_loop_writes_body_end env_upload_aborted none "a.bin".toList
      { ret := ESP_FAIL,
        s := { url := none, post_size := 0, sync_sema := false, client := false,
               fs_handle := some { fs_mounted := true, path := some "/fatfs/a.bin".toList,
                                   fp := true, total_size := 5, had_read_size := 5 } },
        trace := [Call.fseek 0 true, Call.fread 5 5,
          Call.esp_http_client_write "hello".toList 5 (-1)] }
      (by decide) rfl (by decide) rfl rfl (by decide) (by decide)).2⟩

end AtCustomCmd
